import Mathlib

set_option maxRecDepth 400000

/-!
Verification of the WhatsApp-bot backend against its specification.

Each component referenced by a claim is shallowly embedded from the Python
source: pure functions become Lean functions over `List Char` / `List Nat`
(bytes); stateful code becomes explicit state passing; fallible code returns
`Except`.  Filesystem and network boundaries are passed in as explicit
oracle parameters.
-/

namespace WABot

/-! ## Python string primitives

Modelled over `List Char`.  `pyIsSpace` covers Python's ASCII whitespace
(`str.strip` / `str.split` also strip some Unicode spaces; the repository
only ever feeds ASCII markers through these helpers). -/

def pyIsSpace (c : Char) : Bool :=
  c = ' ' || c = '\t' || c = '\n' || c = '\r' || c = Char.ofNat 11 || c = Char.ofNat 12

def dropTrailingWhile (p : Char → Bool) (l : List Char) : List Char :=
  (l.reverse.dropWhile p).reverse

/-- Python `str.strip()` (no argument): whitespace removed from both ends. -/
def pyStrip (l : List Char) : List Char :=
  dropTrailingWhile pyIsSpace (l.dropWhile pyIsSpace)

def pyWordsAux : List Char → List Char → List (List Char)
  | [], cur => if cur.isEmpty then [] else [cur.reverse]
  | c :: cs, cur =>
    if pyIsSpace c then
      if cur.isEmpty then pyWordsAux cs [] else cur.reverse :: pyWordsAux cs []
    else pyWordsAux cs (c :: cur)

/-- Python `str.split()` (no argument): split on whitespace runs, no empties. -/
def pyWords (l : List Char) : List (List Char) := pyWordsAux l []

/-- Index of the first occurrence of `sep` in `xs` (`str.find` semantics for a
nonempty needle; for the empty needle the occurrence is at 0). -/
def firstOcc (sep : List Char) : List Char → Option Nat
  | [] => if sep.isEmpty then some 0 else none
  | c :: cs => if sep.isPrefixOf (c :: cs) then some 0 else (firstOcc sep cs).map (· + 1)

/-- Python `sep in s`. -/
def containsSub (sep xs : List Char) : Bool := (firstOcc sep xs).isSome

def pySplitAux (sep : List Char) : Nat → List Char → List (List Char)
  | 0, xs => [xs]
  | fuel + 1, xs =>
    match firstOcc sep xs with
    | none => [xs]
    | some i => xs.take i :: pySplitAux sep fuel (xs.drop (i + sep.length))

/-- Python `s.split(sep)` for a nonempty `sep`: split at every non-overlapping
occurrence, left to right.  `xs.length + 1` pieces always suffice. -/
def pySplit (sep xs : List Char) : List (List Char) := pySplitAux sep (xs.length + 1) xs

def isAsciiChar (c : Char) : Bool := c.toNat < 128

inductive PyExc
  | keyError
  | indexError
  | typeError
  | attributeError
  | validationError
deriving DecidableEq, Repr

deriving instance DecidableEq for Except

/-- `hmac.compare_digest` on two `str` arguments: raises `TypeError` when
either side contains a non-ASCII character, otherwise compares for equality
(timing behaviour is not modelled; only the result is). -/
def pyCompareDigest (a b : List Char) : Except PyExc Bool :=
  if a.all isAsciiChar && b.all isAsciiChar then .ok (a == b) else .error .typeError

/-! ## SHA-256 and HMAC-SHA256 (`hashlib` / `hmac`)

Bytes are `Nat` values below 256; words are `Nat` values below 2^32 with
explicit reduction `% 2^32`. -/

def M32 (x : Nat) : Nat := x % 4294967296

def rotr32 (n x : Nat) : Nat := (x >>> n) ||| ((x % (2 ^ n)) <<< (32 - n))

def bSig0 (x : Nat) : Nat := rotr32 2 x ^^^ rotr32 13 x ^^^ rotr32 22 x

def bSig1 (x : Nat) : Nat := rotr32 6 x ^^^ rotr32 11 x ^^^ rotr32 25 x

def sSig0 (x : Nat) : Nat := rotr32 7 x ^^^ rotr32 18 x ^^^ (x >>> 3)

def sSig1 (x : Nat) : Nat := rotr32 17 x ^^^ rotr32 19 x ^^^ (x >>> 10)

def chF (e f g : Nat) : Nat := (e &&& f) ^^^ ((e ^^^ 4294967295) &&& g)

def majF (a b c : Nat) : Nat := (a &&& b) ^^^ (a &&& c) ^^^ (b &&& c)

def shaK : List Nat := [1116352408, 1899447441, 3049323471, 3921009573, 961987163,
  1508970993, 2453635748, 2870763221, 3624381080, 310598401, 607225278, 1426881987,
  1925078388, 2162078206, 2614888103, 3248222580, 3835390401, 4022224774, 264347078,
  604807628, 770255983, 1249150122, 1555081692, 1996064986, 2554220882, 2821834349,
  2952996808, 3210313671, 3336571891, 3584528711, 113926993, 338241895, 666307205,
  773529912, 1294757372, 1396182291, 1695183700, 1986661051, 2177026350, 2456956037,
  2730485921, 2820302411, 3259730800, 3345764771, 3516065817, 3600352804, 4094571909,
  275423344, 430227734, 506948616, 659060556, 883997877, 958139571, 1322822218,
  1537002063, 1747873779, 1955562222, 2024104815, 2227730452, 2361852424, 2428436474,
  2756734187, 3204031479, 3329325298]

structure Hash8 where
  a : Nat
  b : Nat
  c : Nat
  d : Nat
  e : Nat
  f : Nat
  g : Nat
  h : Nat
deriving DecidableEq, Repr

def sha256Init : Hash8 :=
  ⟨1779033703, 3144134277, 1013904242, 2773480762, 1359893119, 2600822924, 528734635, 1541459225⟩

/-- Pack a byte list into big-endian 32-bit words (4 bytes each). -/
def words32Of : List Nat → List Nat
  | b0 :: b1 :: b2 :: b3 :: rest =>
    ((((b0 <<< 8) ||| b1) <<< 8 ||| b2) <<< 8 ||| b3) :: words32Of rest
  | _ => []

/-- One message-schedule step over the reversed schedule-so-far. -/
def schedStep (rws : List Nat) : Nat :=
  M32 (sSig1 (rws.getD 1 0) + rws.getD 6 0 + sSig0 (rws.getD 14 0) + rws.getD 15 0)

def schedExtend : Nat → List Nat → List Nat
  | 0, rws => rws
  | n + 1, rws => schedExtend n (schedStep rws :: rws)

def scheduleOf (w16 : List Nat) : List Nat := (schedExtend 48 w16.reverse).reverse

def roundStep (st : Hash8) (kw : Nat × Nat) : Hash8 :=
  let t1 := M32 (st.h + bSig1 st.e + chF st.e st.f st.g + kw.1 + kw.2)
  let t2 := M32 (bSig0 st.a + majF st.a st.b st.c)
  ⟨M32 (t1 + t2), st.a, st.b, st.c, M32 (st.d + t1), st.e, st.f, st.g⟩

def compress (st : Hash8) (block : List Nat) : Hash8 :=
  let r := (shaK.zip (scheduleOf (words32Of block))).foldl roundStep st
  ⟨M32 (st.a + r.a), M32 (st.b + r.b), M32 (st.c + r.c), M32 (st.d + r.d),
   M32 (st.e + r.e), M32 (st.f + r.f), M32 (st.g + r.g), M32 (st.h + r.h)⟩

/-- `k`-byte big-endian encoding of `n % 2^(8 k)`. -/
def toBEBytes : Nat → Nat → List Nat
  | 0, _ => []
  | k + 1, n => toBEBytes k (n >>> 8) ++ [n % 256]

/-- FIPS 180-4 padding: `0x80`, zeros to 56 mod 64, 8-byte bit length. -/
def shaPad (msg : List Nat) : List Nat :=
  msg ++ 128 :: (List.replicate ((119 - msg.length % 64) % 64) 0 ++ toBEBytes 8 (8 * msg.length))

def chunks64Go : Nat → List Nat → List (List Nat)
  | 0, _ => []
  | n + 1, l => l.take 64 :: chunks64Go n (l.drop 64)

def sha256 (msg : List Nat) : List Nat :=
  let padded := shaPad msg
  let fin := (chunks64Go (padded.length / 64) padded).foldl compress sha256Init
  ([fin.a, fin.b, fin.c, fin.d, fin.e, fin.f, fin.g, fin.h]).flatMap (toBEBytes 4)

def hexDigits : List Char :=
  "0123456789abcdef".data

def hexOfByte (b : Nat) : List Char :=
  [hexDigits.getD (b / 16 % 16) '0', hexDigits.getD (b % 16) '0']

/-- `hexdigest()`: lowercase hex of a byte string. -/
def hexOfBytes (bs : List Nat) : List Char := bs.flatMap hexOfByte

/-- `hmac.new(key, msg, hashlib.sha256).digest()` (block size 64). -/
def hmacSha256 (key msg : List Nat) : List Nat :=
  let k0 := if 64 < key.length then sha256 key else key
  let kp := k0 ++ List.replicate (64 - k0.length) 0
  sha256 ((kp.map (· ^^^ 92)) ++ sha256 ((kp.map (· ^^^ 54)) ++ msg))

def hmacSha256Hex (key msg : List Nat) : List Char := hexOfBytes (hmacSha256 key msg)

/-- UTF-8 encoding of one scalar value (`str.encode("utf-8")`). -/
def utf8Char (c : Char) : List Nat :=
  let n := c.toNat
  if n < 128 then [n]
  else if n < 2048 then [192 ||| (n >>> 6), 128 ||| (n &&& 63)]
  else if n < 65536 then
    [224 ||| (n >>> 12), 128 ||| ((n >>> 6) &&& 63), 128 ||| (n &&& 63)]
  else
    [240 ||| (n >>> 18), 128 ||| ((n >>> 12) &&& 63), 128 ||| ((n >>> 6) &&& 63),
     128 ||| (n &&& 63)]

def utf8Bytes (s : String) : List Nat := s.data.flatMap utf8Char

/-! ## `app/utils/whatsapp_security.py` -/

def sigPrefix : List Char := ['s', 'h', 'a', '2', '5', '6', '=']

/-- `verify_webhook_signature(payload, signature, app_secret)`:
rejects empty signature/app-secret, rejects a header without the
`sha256=` prefix, then compares `signature.split("sha256=")[1]` against the
hex HMAC-SHA256 of the payload via `hmac.compare_digest`. -/
def verify_webhook_signature (payload : List Nat) (signature app_secret : String) :
    Except PyExc Bool :=
  if signature.data.isEmpty || app_secret.data.isEmpty then .ok false
  else if !(sigPrefix.isPrefixOf signature.data) then .ok false
  else
    let expected := (pySplit sigPrefix signature.data).getD 1 []
    let calculated := hmacSha256Hex (utf8Bytes app_secret) payload
    pyCompareDigest calculated expected

/-- `validate_verify_token(received, expected)`: false when either side is
empty, otherwise `hmac.compare_digest` on the two strings. -/
def validate_verify_token (received expected : String) : Except PyExc Bool :=
  if received.data.isEmpty || expected.data.isEmpty then .ok false
  else pyCompareDigest received.data expected.data

/-! ### Facts about hex digests and `split("sha256=")` -/

theorem toBEBytes_length (k n : Nat) : (toBEBytes k n).length = k := by
  induction k generalizing n with
  | zero => rfl
  | succ k ih => simp [toBEBytes, ih]

theorem sha256_length (msg : List Nat) : (sha256 msg).length = 32 := by
  simp [sha256, toBEBytes_length]

theorem hexOfBytes_length (bs : List Nat) : (hexOfBytes bs).length = 2 * bs.length := by
  induction bs with
  | nil => rfl
  | cons b bs ih => simp [hexOfBytes, hexOfByte] at ih ⊢; omega

theorem hmacSha256Hex_length (key msg : List Nat) : (hmacSha256Hex key msg).length = 64 := by
  simp [hmacSha256Hex, hexOfBytes_length, hmacSha256, sha256_length]

theorem hexDigits_getD_mem (i : Nat) : hexDigits.getD i '0' ∈ hexDigits := by
  by_cases h : i < hexDigits.length
  · rw [List.getD_eq_getElem _ _ h]; exact List.getElem_mem h
  · rw [List.getD_eq_default _ _ (Nat.le_of_not_lt h)]; decide

theorem hexOfBytes_mem {c : Char} {bs : List Nat} (h : c ∈ hexOfBytes bs) : c ∈ hexDigits := by
  induction bs with
  | nil => simp [hexOfBytes] at h
  | cons b bs ih =>
    simp only [hexOfBytes, List.flatMap_cons, List.mem_append] at h
    rcases h with h | h
    · simp only [hexOfByte, List.mem_cons, List.mem_singleton, List.not_mem_nil, or_false] at h
      rcases h with h | h <;> (subst h; exact hexDigits_getD_mem _)
    · exact ih h

theorem hexDigits_ascii : ∀ c ∈ hexDigits, isAsciiChar c = true := by decide

theorem digest_all_ascii (key msg : List Nat) :
    (hmacSha256Hex key msg).all isAsciiChar = true := by
  rw [List.all_eq_true]
  intro c hc
  exact hexDigits_ascii c (hexOfBytes_mem hc)

theorem isPrefixOf_append_self (l t : List Char) : l.isPrefixOf (l ++ t) = true := by
  induction l with
  | nil => simp [List.isPrefixOf]
  | cons c l ih => simp [List.isPrefixOf, ih]

theorem firstOcc_of_isPrefixOf {t : List Char} (h : sigPrefix.isPrefixOf t = true) :
    firstOcc sigPrefix t = some 0 := by
  cases t with
  | nil => simp [sigPrefix, List.isPrefixOf] at h
  | cons c cs => simp [firstOcc, h]

theorem firstOcc_nil_sigPrefix : firstOcc sigPrefix [] = none := by decide

theorem hex_ne_s : ∀ c ∈ hexDigits, ('s' == c) = false := by decide

theorem firstOcc_hex_append (t : List Char) :
    ∀ d : List Char, (∀ c ∈ d, c ∈ hexDigits) →
      firstOcc sigPrefix (d ++ t) = (firstOcc sigPrefix t).map (· + d.length) := by
  intro d
  induction d with
  | nil =>
    intro _
    cases hx : firstOcc sigPrefix t <;> simp [hx]
  | cons c d ih =>
    intro h
    have hc : c ∈ hexDigits := h c (List.mem_cons_self c d)
    have hpre : sigPrefix.isPrefixOf (c :: (d ++ t)) = false := by
      simp [sigPrefix, List.isPrefixOf, hex_ne_s c hc]
    rw [List.cons_append]
    show (if sigPrefix.isPrefixOf (c :: (d ++ t)) then some 0
          else (firstOcc sigPrefix (d ++ t)).map (· + 1)) = _
    rw [hpre, if_neg (by simp), ih (fun x hx => h x (List.mem_cons_of_mem c hx))]
    cases hx : firstOcc sigPrefix t <;> simp [hx, Nat.add_assoc]

theorem firstOcc_some_spec (sep : List Char) (hsep : sep ≠ []) :
    ∀ (xs : List Char) (i : Nat), firstOcc sep xs = some i →
      sep.isPrefixOf (xs.drop i) = true ∧ i < xs.length := by
  intro xs
  induction xs with
  | nil =>
    intro i h
    have : ¬ sep.isEmpty := by simpa [List.isEmpty_iff] using hsep
    simp [firstOcc, this] at h
  | cons c cs ih =>
    intro i h
    by_cases hp : sep.isPrefixOf (c :: cs) = true
    · rw [show firstOcc sep (c :: cs) = some 0 from by simp [firstOcc, hp]] at h
      injection h with h
      subst h
      exact ⟨hp, Nat.succ_pos _⟩
    · rw [show firstOcc sep (c :: cs) = (firstOcc sep cs).map (· + 1) from by
        simp [firstOcc, hp]] at h
      obtain ⟨j, hj, hji⟩ := Option.map_eq_some'.mp h
      obtain ⟨h1, h2⟩ := ih j hj
      subst hji
      exact ⟨h1, Nat.succ_lt_succ h2⟩

theorem pySplit_prefix_getD (rest : List Char) :
    (pySplit sigPrefix (sigPrefix ++ rest)).getD 1 [] =
      (match firstOcc sigPrefix rest with | none => rest | some i => rest.take i) := by
  have hlen : (sigPrefix ++ rest).length + 1 = (rest.length + 7) + 1 := by
    simp [sigPrefix]
  have hocc : firstOcc sigPrefix (sigPrefix ++ rest) = some 0 :=
    firstOcc_of_isPrefixOf (isPrefixOf_append_self _ _)
  have hdrop : (sigPrefix ++ rest).drop (0 + sigPrefix.length) = rest := by
    simp [List.drop_left]
  rw [pySplit, hlen]
  show (pySplitAux sigPrefix ((rest.length + 7) + 1) (sigPrefix ++ rest)).getD 1 [] = _
  rw [pySplitAux, hocc]
  simp only [List.take_zero, hdrop]
  show (pySplitAux sigPrefix (rest.length + 7) rest).getD 0 [] = _
  have h7 : rest.length + 7 = (rest.length + 6) + 1 := rfl
  rw [h7, pySplitAux]
  cases hx : firstOcc sigPrefix rest <;> simp

theorem seg_eq_digest_iff (rest dg : List Char) (hlen : dg.length = 64)
    (hhex : ∀ c ∈ dg, c ∈ hexDigits) :
    (match firstOcc sigPrefix rest with | none => rest | some i => rest.take i) = dg ↔
      ∃ t : List Char, (t = [] ∨ sigPrefix.isPrefixOf t = true) ∧ rest = dg ++ t := by
  constructor
  · intro h
    cases hx : firstOcc sigPrefix rest with
    | none =>
      rw [hx] at h
      have h2 : rest = dg := h
      exact ⟨[], Or.inl rfl, by simp [h2]⟩
    | some i =>
      rw [hx] at h
      have h : rest.take i = dg := h
      obtain ⟨hpre, hilen⟩ := firstOcc_some_spec sigPrefix (by decide) rest i hx
      have htl : (rest.take i).length = dg.length := by rw [h]
      have hmin : min i rest.length = 64 := by simpa [hlen] using htl
      have hi : i = 64 := by
        rw [Nat.min_eq_left (Nat.le_of_lt hilen)] at hmin; exact hmin
      subst hi
      refine ⟨rest.drop 64, Or.inr hpre, ?_⟩
      rw [← h]
      exact (List.take_append_drop 64 rest).symm
  · rintro ⟨t, ht, rfl⟩
    rcases ht with rfl | hpf
    · rw [firstOcc_hex_append [] dg hhex, firstOcc_nil_sigPrefix]
      simp
    · rw [firstOcc_hex_append t dg hhex, firstOcc_of_isPrefixOf hpf]
      show (dg ++ t).take (0 + dg.length) = dg
      rw [Nat.zero_add]
      exact List.take_left dg t

theorem compare_ok_true_iff (a b : List Char) (ha : a.all isAsciiChar = true) :
    pyCompareDigest a b = .ok true ↔ a = b := by
  constructor
  · intro h
    by_cases hb : b.all isAsciiChar = true
    · rw [pyCompareDigest, if_pos (by simp [ha, hb])] at h
      injection h with h
      exact eq_of_beq h
    · rw [pyCompareDigest, if_neg (by simp [hb])] at h
      exact absurd h (by simp)
  · rintro rfl
    rw [pyCompareDigest, if_pos (by simp [ha])]
    simp

/-- C3 (corrected): `verify_webhook_signature` returns `true` iff the app
secret is nonempty and the header is `"sha256="` followed by the lowercase hex
HMAC-SHA256 of the body followed by an (artifact of prefix stripping via
`split`) tail that is either empty or itself starts with `"sha256="`.  An
empty header, an empty app secret, or a header without the prefix yields
`false`; an empty raw body is *not* itself rejected. -/
theorem verify_webhook_signature_spec (payload : List Nat) (signature app_secret : String) :
    (verify_webhook_signature payload signature app_secret = .ok true ↔
      app_secret.data ≠ [] ∧
      ∃ t : List Char, (t = [] ∨ sigPrefix.isPrefixOf t = true) ∧
        signature.data = sigPrefix ++ hmacSha256Hex (utf8Bytes app_secret) payload ++ t) ∧
    ((signature.data = [] ∨ app_secret.data = [] ∨
        sigPrefix.isPrefixOf signature.data = false) →
      verify_webhook_signature payload signature app_secret = .ok false) := by
  have hlen : (hmacSha256Hex (utf8Bytes app_secret) payload).length = 64 :=
    hmacSha256Hex_length _ _
  have hhex : ∀ c ∈ hmacSha256Hex (utf8Bytes app_secret) payload, c ∈ hexDigits :=
    fun _ hc => hexOfBytes_mem hc
  have hascii := digest_all_ascii (utf8Bytes app_secret) payload
  constructor
  · by_cases hs : signature.data.isEmpty
    · have hsd : signature.data = [] := by simpa [List.isEmpty_iff] using hs
      rw [verify_webhook_signature, if_pos (by simp [hs])]
      constructor
      · intro h; exact absurd h (by simp)
      · rintro ⟨-, t, -, hsig⟩
        rw [hsd] at hsig
        exact absurd hsig (by simp [sigPrefix])
    · by_cases hk : app_secret.data.isEmpty
      · have hkd : app_secret.data = [] := by simpa [List.isEmpty_iff] using hk
        rw [verify_webhook_signature, if_pos (by simp [hk])]
        constructor
        · intro h; exact absurd h (by simp)
        · rintro ⟨hne, -⟩; exact absurd hkd hne
      · by_cases hp : sigPrefix.isPrefixOf signature.data = true
        · obtain ⟨rest, hrest⟩ := List.isPrefixOf_iff_prefix.mp hp
          rw [verify_webhook_signature, if_neg (by simp [hs, hk]),
            if_neg (by simp [hp])]
          rw [← hrest, pySplit_prefix_getD rest]
          rw [compare_ok_true_iff _ _ hascii]
          rw [eq_comm, seg_eq_digest_iff rest _ hlen hhex]
          have hne : app_secret.data ≠ [] := by simpa [List.isEmpty_iff] using hk
          constructor
          · rintro ⟨t, ht, hr⟩
            exact ⟨hne, t, ht, by rw [hr, ← List.append_assoc]⟩
          · rintro ⟨-, t, ht, hsig⟩
            refine ⟨t, ht, ?_⟩
            rw [List.append_assoc] at hsig
            exact List.append_cancel_left hsig
        · rw [verify_webhook_signature, if_neg (by simp [hs, hk]),
            if_pos (by simp [Bool.eq_false_iff.mpr hp])]
          constructor
          · intro h; exact absurd h (by simp)
          · rintro ⟨-, t, -, hsig⟩
            have : sigPrefix.isPrefixOf signature.data = true := by
              rw [hsig, List.append_assoc]
              exact isPrefixOf_append_self _ _
            exact absurd this hp
  · intro h
    by_cases hfirst : (signature.data.isEmpty || app_secret.data.isEmpty) = true
    · rw [verify_webhook_signature, if_pos hfirst]
    · rcases h with h | h | h
      · exact absurd hfirst (by simp [h])
      · exact absurd hfirst (by simp [h])
      · rw [verify_webhook_signature, if_neg (by simp [hfirst]),
          if_pos (by simp [h])]

/-- C3 counterexample to the claim as stated: (a) an empty raw body with a
well-formed matching header verifies as `true` (the function never rejects an
empty body), and (b) a header that is *not* exactly `"sha256=" ++ digest` —
it carries a second `"sha256=..."` tail — still verifies as `true`, because
`split("sha256=")[1]` stops at the next separator occurrence. -/
theorem verify_webhook_signature_claim_counterexample :
    verify_webhook_signature []
        ("sha256=" ++ String.mk (hmacSha256Hex (utf8Bytes "test_secret") []))
        "test_secret" = .ok true ∧
    verify_webhook_signature (utf8Bytes "x")
        ("sha256=" ++ String.mk (hmacSha256Hex (utf8Bytes "k") (utf8Bytes "x")) ++
          "sha256=junk") "k" = .ok true ∧
    ("sha256=" ++ String.mk (hmacSha256Hex (utf8Bytes "k") (utf8Bytes "x")) ++
        "sha256=junk" ≠
      "sha256=" ++ String.mk (hmacSha256Hex (utf8Bytes "k") (utf8Bytes "x"))) := by
  refine ⟨by decide, by decide, by decide⟩

/-- Witness for `verify_webhook_signature_spec` at concrete inputs. -/
theorem verify_webhook_signature_spec_witness :
    verify_webhook_signature (utf8Bytes "x") "" "k" = .ok false ∧
    verify_webhook_signature (utf8Bytes "x") "sha256=deadbeef" "" = .ok false :=
  ⟨(verify_webhook_signature_spec (utf8Bytes "x") "" "k").2 (Or.inl rfl),
   (verify_webhook_signature_spec (utf8Bytes "x") "sha256=deadbeef" "").2
     (Or.inr (Or.inl rfl))⟩

/-! ## `app/services/queue/user_queue_manager.py` — `UserQueueManager.append_message`

The Redis list for one phone is modelled as a `List String` plus its TTL key
state; a Redis error anywhere in the `try` block is modelled by the
`redisError` flag and takes the `except` branch (return 0). -/

structure QueueCfg where
  enabled : Bool
  ttl : Nat
  max_size : Nat
deriving DecidableEq, Repr

structure QueueState where
  items : List String
  ttlSet : Option Nat
deriving DecidableEq, Repr

/-- `append_message(phone, message_text)`: 0 when disabled or on Redis error;
−1 without appending when `llen >= max_size`; otherwise `rpush` then
`expire(ttl)` and return the new length. -/
def append_message (cfg : QueueCfg) (redisError : Bool) (st : QueueState)
    (message_text : String) : Int × QueueState :=
  if !cfg.enabled then (0, st)
  else if redisError then (0, st)
  else if cfg.max_size ≤ st.items.length then (-1, st)
  else
    let items := st.items ++ [message_text]
    ((items.length : Int), { items := items, ttlSet := some cfg.ttl })

/-- Sequential appends, collecting each returned value. -/
def appendRun (cfg : QueueCfg) (st : QueueState) : List String → List Int × QueueState
  | [] => ([], st)
  | m :: ms =>
    let r := append_message cfg false st m
    let rs := appendRun cfg r.2 ms
    (r.1 :: rs.1, rs.2)

theorem append_message_ok (cfg : QueueCfg) (hen : cfg.enabled = true) (st : QueueState)
    (m : String) (hlt : st.items.length < cfg.max_size) :
    append_message cfg false st m =
      (((st.items.length + 1 : Nat) : Int), ⟨st.items ++ [m], some cfg.ttl⟩) := by
  rw [append_message, if_neg (by simp [hen]), if_neg (by simp),
    if_neg (by simp [Nat.not_le.mpr hlt])]
  simp

theorem appendRun_ok (cfg : QueueCfg) (hen : cfg.enabled = true) :
    ∀ (msgs : List String) (st : QueueState),
      st.items.length + msgs.length ≤ cfg.max_size →
      (appendRun cfg st msgs).1 =
        (List.range msgs.length).map (fun i => ((st.items.length + i + 1 : Nat) : Int)) ∧
      (appendRun cfg st msgs).2.items = st.items ++ msgs ∧
      (appendRun cfg st msgs).2.ttlSet = (if msgs.isEmpty then st.ttlSet else some cfg.ttl) := by
  intro msgs
  induction msgs with
  | nil => intro st _; simp [appendRun]
  | cons m ms ih =>
    intro st hle
    simp only [List.length_cons] at hle
    have hlt : st.items.length < cfg.max_size := by omega
    have hstep := append_message_ok cfg hen st m hlt
    have hpre : (QueueState.mk (st.items ++ [m]) (some cfg.ttl)).items.length + ms.length ≤
        cfg.max_size := by
      simp only [List.length_append, List.length_singleton]
      omega
    obtain ⟨ih1, ih2, ih3⟩ := ih ⟨st.items ++ [m], some cfg.ttl⟩ hpre
    have hrun : appendRun cfg st (m :: ms) =
        ((append_message cfg false st m).1 ::
           (appendRun cfg (append_message cfg false st m).2 ms).1,
         (appendRun cfg (append_message cfg false st m).2 ms).2) := rfl
    rw [hrun, hstep]
    dsimp only
    refine ⟨?_, ?_, ?_⟩
    · rw [ih1]
      have hproj : (QueueState.mk (st.items ++ [m]) (some cfg.ttl)).items = st.items ++ [m] :=
        rfl
      rw [hproj]
      simp only [List.length_cons, List.length_append, List.length_singleton]
      rw [List.range_succ_eq_map, List.map_cons, List.map_map]
      congr 1
      norm_num
      intro a ha
      omega
    · rw [ih2]
      simp
    · rw [ih3]
      by_cases hms : ms.isEmpty <;> simp [hms]

/-- C5 (confirmed): with the queue enabled and max size 10, ten appends to an
empty queue return lengths 1..10 with the TTL refreshed on each append, an
11th append returns −1 without appending, and any append returns 0 whenever
the feature is disabled or a Redis error occurs. -/
theorem append_message_overflow_spec (cfg : QueueCfg) (hen : cfg.enabled = true)
    (hmax : cfg.max_size = 10) :
    (∀ st m, st.items.length < 10 →
      append_message cfg false st m =
        (((st.items.length + 1 : Nat) : Int), ⟨st.items ++ [m], some cfg.ttl⟩)) ∧
    (∀ msgs : List String, msgs.length = 10 →
      (appendRun cfg ⟨[], none⟩ msgs).1 = [1, 2, 3, 4, 5, 6, 7, 8, 9, 10] ∧
      (appendRun cfg ⟨[], none⟩ msgs).2.items = msgs ∧
      (appendRun cfg ⟨[], none⟩ msgs).2.ttlSet = some cfg.ttl) ∧
    (∀ (msgs : List String) (m11 : String), msgs.length = 10 →
      append_message cfg false (appendRun cfg ⟨[], none⟩ msgs).2 m11 =
        (-1, (appendRun cfg ⟨[], none⟩ msgs).2) ∧
      (appendRun cfg ⟨[], none⟩ msgs).2.items.length = 10) ∧
    (∀ (cfg2 : QueueCfg) st m, cfg2.enabled = false →
      append_message cfg2 false st m = (0, st)) ∧
    (∀ st m, append_message cfg true st m = (0, st)) := by
  refine ⟨fun st m h => append_message_ok cfg hen st m (by omega), ?_, ?_, ?_, ?_⟩
  · intro msgs hlen
    obtain ⟨h1, h2, h3⟩ := appendRun_ok cfg hen msgs ⟨[], none⟩ (by simp [hlen, hmax])
    refine ⟨?_, by simpa using h2, ?_⟩
    · rw [h1, hlen]
      decide
    · have hne : msgs.isEmpty = false := by
        cases msgs with
        | nil => simp at hlen
        | cons a l => simp
      rw [h3, hne]
      simp
  · intro msgs m11 hlen
    obtain ⟨h1, h2, h3⟩ := appendRun_ok cfg hen msgs ⟨[], none⟩ (by simp [hlen, hmax])
    have hitems : (appendRun cfg ⟨[], none⟩ msgs).2.items.length = 10 := by
      rw [h2]; simp [hlen]
    refine ⟨?_, hitems⟩
    rw [append_message, if_neg (by simp [hen]), if_neg (by simp),
      if_pos (by simp [hitems, hmax])]
  · intro cfg2 st m hdis
    rw [append_message, if_pos (by simp [hdis])]
  · intro st m
    rw [append_message, if_neg (by simp [hen]), if_pos (by simp)]

/-- Witness for `append_message_overflow_spec` at a concrete queue run. -/
theorem append_message_overflow_spec_witness :
    (appendRun ⟨true, 120, 10⟩ ⟨[], none⟩
        ["1", "2", "3", "4", "5", "6", "7", "8", "9", "10"]).1 =
      [1, 2, 3, 4, 5, 6, 7, 8, 9, 10] ∧
    append_message ⟨true, 120, 10⟩ false
        (appendRun ⟨true, 120, 10⟩ ⟨[], none⟩
          ["1", "2", "3", "4", "5", "6", "7", "8", "9", "10"]).2 "11" =
      (-1, (appendRun ⟨true, 120, 10⟩ ⟨[], none⟩
        ["1", "2", "3", "4", "5", "6", "7", "8", "9", "10"]).2) :=
  ⟨((append_message_overflow_spec ⟨true, 120, 10⟩ rfl rfl).2.1 _ (by decide)).1,
   ((append_message_overflow_spec ⟨true, 120, 10⟩ rfl rfl).2.2.1 _ "11" (by decide)).1⟩

/-! ## `app/middleware/rate_limit.py`

The per-identifier timestamp dictionary is modelled as a total function
(`defaultdict(list)`); request times are `Int` (the code subtracts a fixed
60-second `timedelta`, so only the ordered additive structure matters). -/

def updateFn (f : String → List Int) (k : String) (v : List Int) : String → List Int :=
  fun x => if x = k then v else f x

/-- `InMemoryRateLimiter.is_allowed(identifier)`: trim the identifier's list
to timestamps newer than `now - 60`, reject with `(false, 0)` when the
trimmed count is already at the limit, otherwise append `now` and return
`(true, limit - count - 1)`. -/
def is_allowed (limit : Nat) (requests : String → List Int) (now : Int)
    (identifier : String) : (Bool × Nat) × (String → List Int) :=
  let trimmed := (requests identifier).filter (fun τ => now - 60 < τ)
  if limit ≤ trimmed.length then
    ((false, 0), updateFn requests identifier trimmed)
  else
    ((true, limit - trimmed.length - 1), updateFn requests identifier (trimmed ++ [now]))

structure HttpRequest where
  path : String
  client : Option String
deriving DecidableEq, Repr

structure HttpResponse where
  status : Nat
  headers : List (String × String)
  body : String
deriving DecidableEq, Repr

/-- Starlette `response.headers[k] = v`: replace an existing entry, else add. -/
def setHeader (hs : List (String × String)) (k v : String) : List (String × String) :=
  if hs.any (fun p => p.1 = k) then hs.map (fun p => if p.1 = k then (k, v) else p)
  else hs ++ [(k, v)]

def rateLimitBody : String :=
  "\x7b\"error\": \"Rate limit exceeded\", \"message\": \"Too many requests. Please try again later.\"\x7d"

/-- `RateLimitMiddleware.dispatch`: pass through when disabled or on
`/health`; otherwise consult the limiter keyed by the client IP and either
return the 429 response or annotate the wrapped response. -/
def dispatch (enabled : Bool) (limit : Nat) (requests : String → List Int) (now : Int)
    (req : HttpRequest) (baseResp : HttpResponse) :
    HttpResponse × (String → List Int) :=
  if !enabled || req.path = "/health" then (baseResp, requests)
  else
    let client_ip := req.client.getD "unknown"
    let res := is_allowed limit requests now client_ip
    if !res.1.1 then
      (⟨429, [("X-RateLimit-Limit", toString limit), ("X-RateLimit-Remaining", "0"),
              ("Retry-After", "60")], rateLimitBody⟩, res.2)
    else
      ({ baseResp with
          headers := setHeader
            (setHeader baseResp.headers "X-RateLimit-Limit" (toString limit))
            "X-RateLimit-Remaining" (toString res.1.2) }, res.2)

/-- Run a sequence of `(identifier, time)` admission checks, collecting the
admitted events. -/
def processEvents (limit : Nat) : (String → List Int) → List (String × Int) →
    (String → List Int) × List (String × Int)
  | st, [] => (st, [])
  | st, (i, s) :: evs =>
    let res := is_allowed limit st s i
    let rest := processEvents limit res.2 evs
    (rest.1, if res.1.1 then (i, s) :: rest.2 else rest.2)

/-- The timestamps admitted so far for one identifier. -/
def admittedFor (L : List (String × Int)) (i : String) : List Int :=
  (L.filter (fun e => e.1 = i)).map (·.2)

def inWindow (i : String) (t : Int) (e : String × Int) : Bool :=
  e.1 = i && t - 60 < e.2 && e.2 ≤ t

theorem updateFn_self (f : String → List Int) (k : String) (v : List Int) :
    updateFn f k v k = v := by simp [updateFn]

theorem updateFn_other (f : String → List Int) (k : String) (v : List Int)
    (x : String) (h : x ≠ k) : updateFn f k v x = f x := by simp [updateFn, h]

theorem length_filter_mono {α : Type} (l : List α) (p q : α → Bool)
    (h : ∀ a, p a = true → q a = true) :
    (l.filter p).length ≤ (l.filter q).length := by
  induction l with
  | nil => simp
  | cons a tl ih =>
    by_cases hp : p a = true
    · simp only [List.filter_cons, hp, h a hp, if_true, List.length_cons]
      omega
    · simp only [List.filter_cons, hp, if_false, Bool.false_eq_true]
      by_cases hq : q a = true
      · simp only [hq, if_true, List.length_cons]
        omega
      · simp only [hq, if_false, Bool.false_eq_true]
        exact ih

theorem length_filter_map_snd (L : List (String × Int)) (p : Int → Bool) :
    ((L.map (·.2)).filter p).length = (L.filter (fun e => p e.2)).length := by
  induction L with
  | nil => rfl
  | cons e tl ih =>
    by_cases hp : p e.2 = true <;>
      simp [List.filter_cons, hp, ih]

theorem filter_trim_absorb (l : List Int) (cutoff c : Int) (h : cutoff ≤ c) :
    (l.filter (fun τ => cutoff < τ)).filter (fun τ => c < τ) =
      l.filter (fun τ => c < τ) := by
  induction l with
  | nil => rfl
  | cons a tl ih =>
    by_cases h1 : cutoff < a
    · by_cases h2 : c < a <;> simp [List.filter_cons, h1, h2, ih]
    · have h2 : ¬ c < a := by omega
      simp [List.filter_cons, h1, h2, ih]

theorem admittedFor_append_self (L : List (String × Int)) (i : String) (s : Int) :
    admittedFor (L ++ [(i, s)]) i = admittedFor L i ++ [s] := by
  simp [admittedFor, List.filter_append]

theorem admittedFor_append_other (L : List (String × Int)) (i x : String) (s : Int)
    (h : x ≠ i) : admittedFor (L ++ [(i, s)]) x = admittedFor L x := by
  simp [admittedFor, List.filter_append, Ne.symm h]

theorem filter_filter_and {α : Type} (l : List α) (p q : α → Bool) :
    (l.filter p).filter q = l.filter (fun a => p a && q a) := by
  induction l with
  | nil => rfl
  | cons a tl ih =>
    by_cases hp : p a = true <;> by_cases hq : q a = true <;>
      simp [List.filter_cons, hp, hq, ih]

theorem is_allowed_reject_eq (limit : Nat) (requests : String → List Int) (now : Int)
    (i : String)
    (h : limit ≤ ((requests i).filter (fun τ => now - 60 < τ)).length) :
    is_allowed limit requests now i =
      ((false, 0), updateFn requests i ((requests i).filter (fun τ => now - 60 < τ))) := by
  simp only [is_allowed]
  rw [if_pos h]

theorem is_allowed_admit_eq (limit : Nat) (requests : String → List Int) (now : Int)
    (i : String)
    (h : ¬ limit ≤ ((requests i).filter (fun τ => now - 60 < τ)).length) :
    is_allowed limit requests now i =
      ((true, limit - ((requests i).filter (fun τ => now - 60 < τ)).length - 1),
       updateFn requests i (((requests i).filter (fun τ => now - 60 < τ)) ++ [now])) := by
  simp only [is_allowed]
  rw [if_neg h]

theorem processEvents_cons (limit : Nat) (st : String → List Int) (i : String) (s : Int)
    (evs : List (String × Int)) :
    processEvents limit st ((i, s) :: evs) =
      ((processEvents limit (is_allowed limit st s i).2 evs).1,
       if (is_allowed limit st s i).1.1 then
         (i, s) :: (processEvents limit (is_allowed limit st s i).2 evs).2
       else (processEvents limit (is_allowed limit st s i).2 evs).2) := rfl

/-- Core window invariant: starting from a state whose per-identifier trimmed
counts agree with the admitted log `L`, processing any further
time-nondecreasing event sequence keeps every identifier's admitted count in
any trailing 60-second window at or below the limit. -/
theorem processEvents_window_bound (limit : Nat) :
    ∀ (evs : List (String × Int)) (st : String → List Int) (tPrev : Int)
      (L : List (String × Int)),
      List.Pairwise (fun a b : String × Int => a.2 ≤ b.2) evs →
      (∀ e ∈ evs, tPrev ≤ e.2) →
      (∀ e ∈ L, e.2 ≤ tPrev) →
      (∀ (i : String) (c : Int), tPrev - 60 ≤ c →
        ((st i).filter (fun τ => c < τ)).length =
          ((admittedFor L i).filter (fun τ => c < τ)).length) →
      (∀ (i : String) (t : Int), (L.filter (inWindow i t)).length ≤ limit) →
      ∀ (i : String) (t : Int),
        ((L ++ (processEvents limit st evs).2).filter (inWindow i t)).length ≤ limit := by
  intro evs
  induction evs with
  | nil =>
    intro st tPrev L _ _ _ _ hbound i t
    simpa [processEvents] using hbound i t
  | cons ev evs ih =>
    obtain ⟨i0, s⟩ := ev
    intro st tPrev L hpw hlb hpast hstate hbound i t
    obtain ⟨hhead, hpw2⟩ := List.pairwise_cons.mp hpw
    have hts : tPrev ≤ s := hlb (i0, s) (List.mem_cons_self _ _)
    have hlb2 : ∀ e ∈ evs, s ≤ e.2 := fun e he => hhead e he
    have hkey : ((st i0).filter (fun τ => s - 60 < τ)).length =
        ((admittedFor L i0).filter (fun τ => s - 60 < τ)).length :=
      hstate i0 (s - 60) (by omega)
    have hpast2 : ∀ e ∈ L, e.2 ≤ s := fun e he => le_trans (hpast e he) hts
    by_cases hadm : limit ≤ ((st i0).filter (fun τ => s - 60 < τ)).length
    · -- rejected: log unchanged, the identifier's list is only trimmed
      have hstep : (processEvents limit st ((i0, s) :: evs)).2 =
          (processEvents limit
            (updateFn st i0 ((st i0).filter (fun τ => s - 60 < τ))) evs).2 := by
        rw [processEvents_cons, is_allowed_reject_eq limit st s i0 hadm]
        simp
      rw [hstep]
      refine ih (updateFn st i0 ((st i0).filter (fun τ => s - 60 < τ))) s L hpw2 hlb2
        hpast2 ?_ hbound i t
      intro i1 c hc
      by_cases hi : i1 = i0
      · subst hi
        rw [updateFn_self, filter_trim_absorb _ _ _ hc]
        exact hstate i1 c (by omega)
      · rw [updateFn_other _ _ _ _ hi]
        exact hstate i1 c (by omega)
    · -- admitted: the event is appended to the log and to the state
      have hstep : (processEvents limit st ((i0, s) :: evs)).2 =
          (i0, s) :: (processEvents limit
            (updateFn st i0 (((st i0).filter (fun τ => s - 60 < τ)) ++ [s])) evs).2 := by
        rw [processEvents_cons, is_allowed_admit_eq limit st s i0 hadm]
        simp
      rw [hstep, List.append_cons]
      refine ih (updateFn st i0 (((st i0).filter (fun τ => s - 60 < τ)) ++ [s])) s
        (L ++ [(i0, s)]) hpw2 hlb2 ?_ ?_ ?_ i t
      · intro e he
        rcases List.mem_append.mp he with h | h
        · exact hpast2 e h
        · simp only [List.mem_singleton] at h
          rw [h]
      · intro i1 c hc
        by_cases hi : i1 = i0
        · subst hi
          rw [updateFn_self, admittedFor_append_self, List.filter_append,
            List.filter_append, List.length_append, List.length_append,
            filter_trim_absorb _ _ _ hc, hstate i1 c (by omega)]
        · rw [updateFn_other _ _ _ _ hi, admittedFor_append_other _ _ _ _ hi]
          exact hstate i1 c (by omega)
      · intro i1 t1
        rw [List.filter_append, List.length_append]
        by_cases hw : inWindow i1 t1 (i0, s) = true
        · have h1 : ([(i0, s)].filter (inWindow i1 t1)).length = 1 := by
            simp [List.filter_cons, hw]
          have hw2 : (i0 = i1 ∧ t1 - 60 < s) ∧ s ≤ t1 := by
            simpa [inWindow] using hw
          obtain ⟨⟨hid, hw3⟩, hw4⟩ := hw2
          subst hid
          have e1 : (L.filter (inWindow i0 t1)).length =
              ((admittedFor L i0).filter (fun τ => t1 - 60 < τ && τ ≤ t1)).length := by
            rw [admittedFor, length_filter_map_snd, filter_filter_and]
            congr 1
            apply List.filter_congr
            intro e _
            simp [inWindow, Bool.and_assoc]
          have e2 : ((admittedFor L i0).filter (fun τ => t1 - 60 < τ && τ ≤ t1)).length ≤
              ((admittedFor L i0).filter (fun τ => s - 60 < τ)).length := by
            apply length_filter_mono
            intro a ha
            simp only [Bool.and_eq_true, decide_eq_true_eq] at ha
            simp only [decide_eq_true_eq]
            omega
          have hLlt : (L.filter (inWindow i0 t1)).length + 1 ≤ limit := by
            rw [e1]
            have := lt_of_le_of_lt (le_trans e2 (le_of_eq hkey.symm))
              (Nat.lt_of_not_le hadm)
            omega
          omega
        · have hw0 : inWindow i1 t1 (i0, s) = false := by
            revert hw; cases inWindow i1 t1 (i0, s) <;> simp
          have h1 : ([(i0, s)].filter (inWindow i1 t1)).length = 0 := by
            simp [List.filter_cons, hw0]
          rw [h1]
          have := hbound i1 t1
          omega

/-- C8 (confirmed): the in-memory limiter admits at most `limit` requests per
identifier within any trailing 60-second window; a rejection produces the 429
response with the `X-RateLimit-Limit`, `X-RateLimit-Remaining: 0` and
`Retry-After: 60` headers; an admission records the timestamp and annotates
the wrapped response; and identifiers are handled independently. -/
theorem rate_limiter_spec (limit : Nat) :
    (∀ evs : List (String × Int),
      List.Pairwise (fun a b : String × Int => a.2 ≤ b.2) evs →
      ∀ (i : String) (t : Int),
        (((processEvents limit (fun _ => []) evs).2).filter (inWindow i t)).length ≤
          limit) ∧
    (∀ (requests : String → List Int) (now : Int) (req : HttpRequest)
        (baseResp : HttpResponse),
      req.path ≠ "/health" →
      (is_allowed limit requests now (req.client.getD "unknown")).1.1 = false →
      dispatch true limit requests now req baseResp =
        (⟨429, [("X-RateLimit-Limit", toString limit), ("X-RateLimit-Remaining", "0"),
                ("Retry-After", "60")], rateLimitBody⟩,
         (is_allowed limit requests now (req.client.getD "unknown")).2)) ∧
    (∀ (requests : String → List Int) (now : Int) (i : String),
      (is_allowed limit requests now i).1.1 = true →
      (is_allowed limit requests now i).2 i =
        (requests i).filter (fun τ => now - 60 < τ) ++ [now]) ∧
    (∀ (requests : String → List Int) (now : Int) (req : HttpRequest)
        (baseResp : HttpResponse),
      req.path ≠ "/health" →
      (is_allowed limit requests now (req.client.getD "unknown")).1.1 = true →
      dispatch true limit requests now req baseResp =
        ({ baseResp with
            headers := setHeader
              (setHeader baseResp.headers "X-RateLimit-Limit" (toString limit))
              "X-RateLimit-Remaining"
              (toString (is_allowed limit requests now (req.client.getD "unknown")).1.2) },
         (is_allowed limit requests now (req.client.getD "unknown")).2)) ∧
    (∀ (requests : String → List Int) (now : Int) (i other : String), other ≠ i →
      (is_allowed limit requests now i).2 other = requests other) ∧
    (∀ (requests requests2 : String → List Int) (now : Int) (i : String),
      requests i = requests2 i →
      (is_allowed limit requests now i).1 = (is_allowed limit requests2 now i).1) := by
  refine ⟨?_, ?_, ?_, ?_, ?_, ?_⟩
  · intro evs hpw i t
    cases evs with
    | nil => simp [processEvents]
    | cons e evs2 =>
      have h := processEvents_window_bound limit (e :: evs2) (fun _ => []) e.2 [] hpw
        (fun x hx => by
          rcases List.mem_cons.mp hx with h | h
          · rw [h]
          · exact (List.pairwise_cons.mp hpw).1 x h)
        (by intro x hx; simp at hx)
        (by intro i1 c _; simp [admittedFor])
        (by intro i1 t1; simp)
        i t
      simpa using h
  · intro requests now req baseResp hpath hfalse
    rw [dispatch, if_neg (by simp [hpath])]
    simp only [hfalse]
    rfl
  · intro requests now i htrue
    by_cases h : limit ≤ ((requests i).filter (fun τ => now - 60 < τ)).length
    · rw [is_allowed_reject_eq limit requests now i h] at htrue
      simp at htrue
    · rw [is_allowed_admit_eq limit requests now i h]
      exact updateFn_self _ _ _
  · intro requests now req baseResp hpath htrue
    rw [dispatch, if_neg (by simp [hpath])]
    simp only [htrue]
    rfl
  · intro requests now i other hne
    by_cases h : limit ≤ ((requests i).filter (fun τ => now - 60 < τ)).length
    · rw [is_allowed_reject_eq limit requests now i h]
      exact updateFn_other _ _ _ _ hne
    · rw [is_allowed_admit_eq limit requests now i h]
      exact updateFn_other _ _ _ _ hne
  · intro requests requests2 now i heq
    simp only [is_allowed, heq]
    split <;> rfl

/-- Witness for `rate_limiter_spec` at a concrete event sequence. -/
theorem rate_limiter_spec_witness :
    ((processEvents 1 (fun _ => []) [("a", 0), ("a", 10), ("b", 10)]).2.filter
      (inWindow "a" 10)).length ≤ 1 :=
  (rate_limiter_spec 1).1 [("a", 0), ("a", 10), ("b", 10)] (by decide) "a" 10

/-- C9 (confirmed): when `is_allowed` rejects, no timestamp is recorded for
the identifier — its stored list is exactly the trimmed list — and no other
identifier's list changes. -/
theorem is_allowed_reject_frame (limit : Nat) (requests : String → List Int) (now : Int)
    (identifier : String)
    (h : (is_allowed limit requests now identifier).1.1 = false) :
    (is_allowed limit requests now identifier).2 identifier =
      (requests identifier).filter (fun τ => now - 60 < τ) ∧
    (∀ other, other ≠ identifier →
      (is_allowed limit requests now identifier).2 other = requests other) := by
  by_cases hc : limit ≤ ((requests identifier).filter (fun τ => now - 60 < τ)).length
  · rw [is_allowed_reject_eq limit requests now identifier hc]
    exact ⟨updateFn_self _ _ _, fun o ho => updateFn_other _ _ _ _ ho⟩
  · rw [is_allowed_admit_eq limit requests now identifier hc] at h
    simp at h

/-- Witness for `is_allowed_reject_frame` at a concrete rejected request. -/
theorem is_allowed_reject_frame_witness :
    (is_allowed 0 (fun _ => []) 0 "a").2 "b" = [] :=
  (is_allowed_reject_frame 0 (fun _ => []) 0 "a" (by decide)).2 "b" (by decide)

/-! ## `app/tools/base.py`, `app/tools/registry.py` and the builtin tools -/

structure UserM where
  phone : String
  subscription_tier : String
  is_active : Bool
deriving DecidableEq, Repr

structure BaseTool where
  name : String
  description : String
  capabilities : String
  enabled : Bool
  min_tier : String
deriving DecidableEq, Repr

def assocLookup {β : Type} : List (String × β) → String → Option β
  | [], _ => none
  | (k, v) :: tl, key => if k = key then some v else assocLookup tl key

/-- The `tier_order` dict of `is_valid_for_user`. -/
def tierAssoc : List (String × Nat) := [("free", 0), ("plus", 1), ("pro", 2)]

/-- `tier_order.get(tier, 0)`. -/
def tier_order_get (tier : String) : Nat := (assocLookup tierAssoc tier).getD 0

/-- `user.subscription_tier or "free"` (an empty tier string is falsy). -/
def effective_tier (user : UserM) : String :=
  if user.subscription_tier = "" then "free" else user.subscription_tier

/-- `BaseTool.is_valid_for_user(user)`. -/
def is_valid_for_user (tool : BaseTool) (user : UserM) : Bool :=
  if !tool.enabled then false
  else tier_order_get tool.min_tier ≤ tier_order_get (effective_tier user)

/-- Python dict assignment `d[k] = v`: replace an existing key, else append. -/
def dictInsert {β : Type} (d : List (String × β)) (k : String) (v : β) :
    List (String × β) :=
  if (d.map Prod.fst).contains k then d.map (fun p => if p.1 = k then (k, v) else p)
  else d ++ [(k, v)]

def myTool : BaseTool :=
  ⟨"my_tool", "Simple demo tool",
   "Takes user text and returns it with a prefix. This is a demonstration tool.",
   true, "free"⟩

def textToImageTool : BaseTool :=
  ⟨"text_to_image", "Generate images from text descriptions using Gemini",
   "Creates high-quality images using Gemini 2.5 Flash Image (Nano Banana).",
   true, "free"⟩

def imageToImageTool : BaseTool :=
  ⟨"image_to_image", "Transform or edit the most recently uploaded image using Gemini",
   "Transforms the most recently uploaded image based on text instructions.",
   true, "free"⟩

/-- `CalculatorTool()` exists in the codebase with these constructor defaults,
but `init_tools` has its registration commented out. -/
def calculatorTool : BaseTool :=
  ⟨"calculator", "Perform basic math calculations",
   "Can evaluate mathematical expressions. Supports basic operators and numbers.",
   true, "free"⟩

/-- `init_tools()`: registers `MyTool, TextToImageTool, ImageToImageTool` into
the process-wide name-keyed dict (the `CalculatorTool()` line is commented
out in the source). -/
def init_tools : List (String × BaseTool) :=
  [myTool, textToImageTool, imageToImageTool].foldl (fun d t => dictInsert d t.name t) []

/-- `get_tools_for_user(user)`: the registered tools passing the tier gate. -/
def get_tools_for_user (registry : List (String × BaseTool)) (user : UserM) :
    List BaseTool :=
  (registry.map Prod.snd).filter (fun t => is_valid_for_user t user)

/-- C4 (confirmed): a disabled tool is never valid; an enabled tool is valid
iff the user's tier ordinal (free=0 < plus=1 < pro=2, unknown strings 0) is at
least the tool's minimum-tier ordinal; `get_tools_for_user` is exactly the
tier filter of the registry, hence monotone in the tier order, with
pro-minimum tools visible only to pro users and free-minimum enabled tools
visible to all three tiers. -/
theorem tier_gating_spec :
    (tier_order_get "free" = 0 ∧ tier_order_get "plus" = 1 ∧ tier_order_get "pro" = 2 ∧
      ∀ s : String, s ≠ "free" → s ≠ "plus" → s ≠ "pro" → tier_order_get s = 0) ∧
    (∀ (tool : BaseTool) (user : UserM), tool.enabled = false →
      is_valid_for_user tool user = false) ∧
    (∀ (tool : BaseTool) (user : UserM), tool.enabled = true →
      (is_valid_for_user tool user = true ↔
        tier_order_get tool.min_tier ≤ tier_order_get (effective_tier user))) ∧
    (∀ (registry : List (String × BaseTool)) (user : UserM) (t : BaseTool),
      t ∈ get_tools_for_user registry user ↔
        t ∈ registry.map Prod.snd ∧ is_valid_for_user t user = true) ∧
    (∀ (registry : List (String × BaseTool)) (u1 u2 : UserM),
      tier_order_get (effective_tier u1) ≤ tier_order_get (effective_tier u2) →
      ∀ t ∈ get_tools_for_user registry u1, t ∈ get_tools_for_user registry u2) ∧
    (∀ (tool : BaseTool) (user : UserM), tool.enabled = true → tool.min_tier = "pro" →
      (user.subscription_tier = "pro" → is_valid_for_user tool user = true) ∧
      (user.subscription_tier = "free" → is_valid_for_user tool user = false) ∧
      (user.subscription_tier = "plus" → is_valid_for_user tool user = false)) ∧
    (∀ (tool : BaseTool) (user : UserM), tool.enabled = true → tool.min_tier = "free" →
      user.subscription_tier = "free" ∨ user.subscription_tier = "plus" ∨
        user.subscription_tier = "pro" →
      is_valid_for_user tool user = true) := by
  refine ⟨⟨rfl, rfl, rfl, ?_⟩, ?_, ?_, ?_, ?_, ?_, ?_⟩
  · intro s h1 h2 h3
    simp [tier_order_get, tierAssoc, assocLookup, Ne.symm h1, Ne.symm h2, Ne.symm h3]
  · intro tool user hdis
    simp [is_valid_for_user, hdis]
  · intro tool user hen
    simp [is_valid_for_user, hen]
  · intro registry user t
    simp [get_tools_for_user, List.mem_filter]
  · intro registry u1 u2 hle t ht
    rw [get_tools_for_user, List.mem_filter] at ht ⊢
    refine ⟨ht.1, ?_⟩
    have h2 := ht.2
    rw [is_valid_for_user] at h2 ⊢
    by_cases hen : t.enabled = true
    · rw [if_neg (by simp [hen])] at h2 ⊢
      simp only [decide_eq_true_eq] at h2 ⊢
      omega
    · rw [if_pos (by simpa using hen)] at h2
      exact absurd h2 (by simp)
  · intro tool user hen hpro
    refine ⟨?_, ?_, ?_⟩ <;> intro htier <;>
      simp [is_valid_for_user, hen, hpro, effective_tier, htier, tier_order_get,
        tierAssoc, assocLookup]
  · intro tool user hen hfree htier
    rcases htier with h | h | h <;>
      simp [is_valid_for_user, hen, hfree, effective_tier, h, tier_order_get,
        tierAssoc, assocLookup]

/-- Witness for `tier_gating_spec` at a concrete tool and user. -/
theorem tier_gating_spec_witness :
    is_valid_for_user ⟨"x", "", "", true, "pro"⟩ ⟨"1", "pro", true⟩ = true :=
  ((tier_gating_spec.2.2.2.2.2.1 ⟨"x", "", "", true, "pro"⟩ ⟨"1", "pro", true⟩
    rfl rfl).1 rfl)

/-- C10 (confirmed): after `init_tools` the registry holds exactly
`my_tool`, `text_to_image` and `image_to_image`; no user of any tier is ever
given a tool named `calculator` (or `generate_image`), although a
`CalculatorTool` with minimum tier `free` exists in the codebase. -/
theorem registry_has_no_calculator :
    init_tools.map Prod.fst = ["my_tool", "text_to_image", "image_to_image"] ∧
    (∀ (user : UserM) (t : BaseTool), t ∈ get_tools_for_user init_tools user →
      t.name ≠ "calculator" ∧ t.name ≠ "generate_image") ∧
    calculatorTool.name = "calculator" ∧ calculatorTool.min_tier = "free" ∧
    calculatorTool.enabled = true := by
  refine ⟨by decide, ?_, rfl, rfl, rfl⟩
  intro user t ht
  have hmem : t ∈ init_tools.map Prod.snd :=
    (List.mem_filter.mp ht).1
  have hlist : init_tools.map Prod.snd = [myTool, textToImageTool, imageToImageTool] := by
    decide
  rw [hlist] at hmem
  simp only [List.mem_cons, List.not_mem_nil, or_false] at hmem
  rcases hmem with rfl | rfl | rfl <;> exact ⟨by decide, by decide⟩

/-- Witness for `registry_has_no_calculator` at a concrete user. -/
theorem registry_has_no_calculator_witness :
    myTool.name ≠ "calculator" ∧ myTool.name ≠ "generate_image" :=
  registry_has_no_calculator.2.1 ⟨"1", "free", true⟩ myTool (by decide)

/-! ## `app/services/whatsapp/media_handler.py`

`validate_media_path` consults the filesystem
(`os.path.exists and os.path.isfile`), passed in here as the `fileExists`
oracle.  The markdown pattern
`!\[(?:IMAGE_URL:)?([^\]]+)\]\(IMAGE_URL:([^\)]+)\)` is deterministic: the
negated character classes make each quantifier stop at the next `]` / `)`,
so a match at a position is forced, and `re.search` takes the leftmost
matching start position. -/

def markerChars : List Char := ['I', 'M', 'A', 'G', 'E', '_', 'U', 'R', 'L', ':']

/-- `validate_media_path(path)`: nonempty, and an `http(s)` URL or an existing
regular file. -/
def validate_media_path (fileExists : String → Bool) (path : String) : Bool :=
  if path.data.isEmpty then false
  else if ("http://".data.isPrefixOf path.data) || ("https://".data.isPrefixOf path.data)
    then true
  else fileExists path

/-- Attempt the markdown pattern anchored at the head of `xs`; on success
return the second capture group (the path) and the text after the match. -/
def mdMatchAt : List Char → Option (List Char × List Char)
  | '!' :: '[' :: r1 =>
    match List.findIdx? (fun c => c = ']') r1 with
    | some j =>
      if j = 0 then none
      else
        match r1.drop (j + 1) with
        | '(' :: r3 =>
          if markerChars.isPrefixOf r3 then
            let r4 := r3.drop markerChars.length
            match List.findIdx? (fun c => c = ')') r4 with
            | some k => if k = 0 then none else some (r4.take k, r4.drop (k + 1))
            | none => none
          else none
        | _ => none
    | none => none
  | _ => none

/-- `re.search` over the markdown pattern: leftmost match, returned as
(text before the match, capture group 2, text after the match). -/
def mdSearch : List Char → Option (List Char × List Char × List Char)
  | [] => none
  | c :: cs =>
    match mdMatchAt (c :: cs) with
    | some (g2, rest) => some ([], g2, rest)
    | none =>
      match mdSearch cs with
      | some (pre, g2, rest) => some (c :: pre, g2, rest)
      | none => none

def mdSubAux : Nat → List Char → List Char
  | 0, xs => xs
  | n + 1, xs =>
    match mdSearch xs with
    | none => xs
    | some (pre, _, rest) => pre ++ mdSubAux n rest

/-- `re.sub(markdown_pattern, '', text)`: every non-overlapping match removed
left to right (each match consumes at least seven characters, so `length`
steps of fuel always suffice). -/
def mdSub (xs : List Char) : List Char := mdSubAux xs.length xs

/-- The trailing-punctuation strip applied to the simple-format path. -/
def strip_trailing_punct (l : List Char) : List Char :=
  dropTrailingWhile
    (fun c => c = ')' || c = ']' || c = Char.ofNat 125 || c = '>' || c = '"' ||
      c = Char.ofNat 39 || pyIsSpace c) l

/-- The `image_path` computed by `extract_image_url_from_text` before
validation: capture group 2 (stripped) in the markdown branch, else the first
whitespace-delimited token after the first marker with trailing punctuation
removed. -/
def extractedPath (text : String) : String :=
  match mdSearch text.data with
  | some (_, g2, _) => String.mk (pyStrip g2)
  | none =>
    match firstOcc markerChars text.data with
    | some i =>
      let stripped := pyStrip (text.data.drop (i + markerChars.length))
      if stripped.isEmpty then ""
      else String.mk (strip_trailing_punct ((pyWords stripped).getD 0 []))
    | none => ""

/-- The `caption` computed by `extract_image_url_from_text`: the text with
every markdown image construct removed (stripped) in the markdown branch,
else the stripped text before the first marker. -/
def extractedCaption (text : String) : String :=
  match mdSearch text.data with
  | some _ => String.mk (pyStrip (mdSub text.data))
  | none =>
    match firstOcc markerChars text.data with
    | some i => String.mk (pyStrip (text.data.take i))
    | none => text

/-- `extract_image_url_from_text(text)`: `(text, None)` without the marker;
otherwise `(caption, path)` when the extracted path validates, and
`(caption or text, None)` when it does not. -/
def extract_image_url_from_text (fileExists : String → Bool) (text : String) :
    String × Option String :=
  if !(containsSub markerChars text.data) then (text, none)
  else if validate_media_path fileExists (extractedPath text) then
    (extractedCaption text, some (extractedPath text))
  else (if extractedCaption text = "" then text else extractedCaption text, none)

/-- C2 counterexample to the claim as stated: for
`"Sure! IMAGE_URL:/nonexistent/path.jpg"` with no existing files, the caption
returned is the stripped pre-marker text `"Sure!"`, not the original full
text. -/
theorem extract_image_url_claim_counterexample :
    extract_image_url_from_text (fun _ => false)
        "Sure! IMAGE_URL:/nonexistent/path.jpg" = ("Sure!", none) ∧
    ("Sure!" : String) ≠ "Sure! IMAGE_URL:/nonexistent/path.jpg" := by
  refine ⟨by decide, by decide⟩

/-- C2 (corrected): when the marker is present but the extracted path fails
validation, the function returns no image path together with the extracted
caption — the stripped text before the marker in the simple branch, the
markdown-stripped text in the markdown branch — and falls back to the
original text only when that caption is empty. -/
theorem extract_image_url_invalid_path_spec (fileExists : String → Bool) (text : String)
    (hmark : containsSub markerChars text.data = true)
    (hinvalid : validate_media_path fileExists (extractedPath text) = false) :
    extract_image_url_from_text fileExists text =
      ((if extractedCaption text = "" then text else extractedCaption text), none) ∧
    (∀ i, mdSearch text.data = none → firstOcc markerChars text.data = some i →
      extractedCaption text = String.mk (pyStrip (text.data.take i))) := by
  constructor
  · rw [extract_image_url_from_text, if_neg (by simp [hmark]), if_neg (by simp [hinvalid])]
  · intro i hmd hocc
    rw [extractedCaption, hmd, hocc]

/-- Witness for `extract_image_url_invalid_path_spec` at the spec's example
input. -/
theorem extract_image_url_invalid_path_spec_witness :
    extract_image_url_from_text (fun _ => false)
        "Sure! IMAGE_URL:/nonexistent/path.jpg" =
      ((if extractedCaption "Sure! IMAGE_URL:/nonexistent/path.jpg" = "" then
          "Sure! IMAGE_URL:/nonexistent/path.jpg"
        else extractedCaption "Sure! IMAGE_URL:/nonexistent/path.jpg"), none) :=
  (extract_image_url_invalid_path_spec (fun _ => false)
    "Sure! IMAGE_URL:/nonexistent/path.jpg" (by decide) (by decide)).1

/-! ## Python `int(str)` -/

def pyDigitsGo : Bool → Nat → List Char → Option Nat
  | pu, acc, [] => if pu then none else some acc
  | pu, acc, c :: cs =>
    if c.isDigit then pyDigitsGo false (acc * 10 + (c.toNat - 48)) cs
    else if c = '_' then
      if pu then none else pyDigitsGo true acc cs
    else none

def pyIntDigits : List Char → Option Nat
  | [] => none
  | c :: cs => if c.isDigit then pyDigitsGo false (c.toNat - 48) cs else none

/-- `int(s)` restricted to ASCII input, where it agrees with CPython exactly:
surrounding whitespace stripped (for ASCII, `int()` strips the same set as
`str.strip` minus the 0x1c-0x1f separators, which `int()` rejects), an
optional sign, then digits in which an underscore may appear only singly and
only between two digits.  Non-ASCII decimal digits, which CPython also
accepts, are outside the model; theorems using `pyInt` assume ASCII input. -/
def pyInt (s : String) : Option Int :=
  match pyStrip s.data with
  | '+' :: rest => (pyIntDigits rest).map Int.ofNat
  | '-' :: rest => (pyIntDigits rest).map (fun n => -(n : Int))
  | rest => (pyIntDigits rest).map Int.ofNat

/-! ## JSON documents and Python dict/list access

Webhook payloads are decoded JSON documents.  Numbers are modelled as `Int`
(the repository never reads fractional payload fields). -/

inductive J
  | null
  | bool (b : Bool)
  | num (n : Int)
  | str (s : String)
  | arr (l : List J)
  | obj (l : List (String × J))

def jTruthy : J → Bool
  | .null => false
  | .bool b => b
  | .num n => n != 0
  | .str s => !s.data.isEmpty
  | .arr l => !l.isEmpty
  | .obj l => !l.isEmpty

/-- `v.get(k, dflt)`: `AttributeError` unless `v` is a dict. -/
def pyGet (v : J) (k : String) (dflt : J) : Except PyExc J :=
  match v with
  | .obj l => .ok ((assocLookup l k).getD dflt)
  | _ => .error .attributeError

/-- `v[0]`: head of a list (or 1-character string), `IndexError` when empty,
`KeyError` for a dict (decoded JSON dicts carry only string keys, so the
integer subscript always misses), `TypeError` for non-subscriptable values. -/
def pyIndex0 : J → Except PyExc J
  | .arr [] => .error .indexError
  | .arr (x :: _) => .ok x
  | .str s =>
    match s.data with
    | [] => .error .indexError
    | c :: _ => .ok (.str (String.mk [c]))
  | .obj _ => .error .keyError
  | _ => .error .typeError

/-- `v[k]` for a string key: `KeyError` for a dict without the key,
`TypeError` otherwise. -/
def pySubscript (v : J) (k : String) : Except PyExc J :=
  match v with
  | .obj l =>
    match assocLookup l k with
    | some x => .ok x
    | none => .error .keyError
  | _ => .error .typeError

def objGetD (m : List (String × J)) (k : String) (d : J) : J :=
  (assocLookup m k).getD d

def pyEscapeChar (q : Char) (c : Char) : List Char :=
  if c = '\\' then ['\\', '\\']
  else if c = q then ['\\', q]
  else if c = '\n' then ['\\', 'n']
  else if c = '\r' then ['\\', 'r']
  else if c = '\t' then ['\\', 't']
  else [c]

/-- Python `repr` of a string: single quotes unless the string contains a
single quote and no double quote (escaping of other non-printables is not
modelled; the repository only formats readable titles this way). -/
def pyReprStr (s : String) : String :=
  let hasSingle := s.data.contains (Char.ofNat 39)
  let hasDouble := s.data.contains '"'
  let q := if hasSingle && !hasDouble then '"' else Char.ofNat 39
  String.mk (q :: (s.data.flatMap (pyEscapeChar q) ++ [q]))

mutual

def pyRepr : J → String
  | .null => "None"
  | .bool b => if b then "True" else "False"
  | .num n => toString n
  | .str s => pyReprStr s
  | .arr l => "[" ++ pyReprList l ++ "]"
  | .obj l => "\x7b" ++ pyReprObj l ++ "\x7d"

def pyReprList : List J → String
  | [] => ""
  | [x] => pyRepr x
  | x :: y :: tl => pyRepr x ++ ", " ++ pyReprList (y :: tl)

def pyReprObj : List (String × J) → String
  | [] => ""
  | [(k, v)] => pyReprStr k ++ ": " ++ pyRepr v
  | (k, v) :: p :: tl => pyReprStr k ++ ": " ++ pyRepr v ++ ", " ++ pyReprObj (p :: tl)

end

/-- Python `str()` as used in f-string interpolation. -/
def pyStr : J → String
  | .str s => s
  | v => pyRepr v

/-- Python `==` between a JSON value and a string literal. -/
def jEqStr (v : J) (s : String) : Bool :=
  match v with
  | .str s2 => s2 == s
  | _ => false

/-! ## `app/services/whatsapp/parser.py` -/

inductive MType
  | text
  | image
  | video
  | audio
  | document
  | interactive
  | location
  | contacts
  | unknown
deriving DecidableEq, Repr

def mtValue : MType → String
  | .text => "text"
  | .image => "image"
  | .video => "video"
  | .audio => "audio"
  | .document => "document"
  | .interactive => "interactive"
  | .location => "location"
  | .contacts => "contacts"
  | .unknown => "unknown"

def knownTypes : List (String × MType) :=
  [("text", .text), ("image", .image), ("video", .video), ("audio", .audio),
   ("document", .document), ("interactive", .interactive), ("location", .location),
   ("contacts", .contacts), ("unknown", .unknown)]

/-- `MessageType(type_str)` with `ValueError` caught and mapped to `UNKNOWN`:
any value that is not one of the member strings becomes `unknown`. -/
def mtypeOf (v : J) : MType :=
  match v with
  | .str s => (assocLookup knownTypes s).getD .unknown
  | _ => .unknown

/-- `MessageContent`: constructed with defaults, then mutated by plain
attribute assignment (pydantic does not re-validate assignments here), so the
fields hold raw JSON values. -/
structure ContentM where
  text : J := .str ""
  media_id : J := .null
  media_url : J := .null
  mime_type : J := .null
  caption : J := .null
  button_id : J := .null
  button_title : J := .null
  list_id : J := .null
  list_title : J := .null

/-- `extract_message_content(message, msg_type)`. -/
def extract_message_content (m : List (String × J)) (mt : MType) :
    Except PyExc ContentM :=
  match mt with
  | .text => do
    let body ← pyGet (objGetD m "text" (.obj [])) "body" (.str "")
    pure { text := body }
  | .image => do
    let image_data := objGetD m "image" (.obj [])
    let mid ← pyGet image_data "id" .null
    let mime ← pyGet image_data "mime_type" .null
    let cap ← pyGet image_data "caption" (.str "")
    pure { media_id := mid, mime_type := mime, caption := cap, text := cap }
  | .video => do
    let video_data := objGetD m "video" (.obj [])
    let mid ← pyGet video_data "id" .null
    let mime ← pyGet video_data "mime_type" .null
    let cap ← pyGet video_data "caption" (.str "")
    pure { media_id := mid, mime_type := mime, caption := cap, text := cap }
  | .audio => do
    let audio_data := objGetD m "audio" (.obj [])
    let mid ← pyGet audio_data "id" .null
    let mime ← pyGet audio_data "mime_type" .null
    pure { media_id := mid, mime_type := mime, text := .str "[Audio message]" }
  | .document => do
    let doc_data := objGetD m "document" (.obj [])
    let mid ← pyGet doc_data "id" .null
    let mime ← pyGet doc_data "mime_type" .null
    let cap ← pyGet doc_data "caption" (.str "")
    pure { media_id := mid, mime_type := mime, caption := cap,
           text := if jTruthy cap then cap else .str "[Document]" }
  | .interactive => do
    let interactive := objGetD m "interactive" (.obj [])
    let itype ← pyGet interactive "type" .null
    if jEqStr itype "button_reply" then do
      let button_reply ← pyGet interactive "button_reply" (.obj [])
      let bid ← pyGet button_reply "id" .null
      let btitle ← pyGet button_reply "title" .null
      pure { button_id := bid, button_title := btitle,
             text := .str ("[Button: " ++ pyStr btitle ++ "]") }
    else if jEqStr itype "list_reply" then do
      let list_reply ← pyGet interactive "list_reply" (.obj [])
      let lid ← pyGet list_reply "id" .null
      let ltitle ← pyGet list_reply "title" .null
      pure { list_id := lid, list_title := ltitle,
             text := .str ("[List: " ++ pyStr ltitle ++ "]") }
    else
      pure { text := .str ("[Interactive: " ++ pyStr itype ++ "]") }
  | _ => pure { text := .str ("[" ++ mtValue mt ++ " message not supported]") }

structure ParsedMessage where
  from_phone : String
  message_id : String
  message_type : MType
  content : ContentM
  timestamp : Option Int
  raw_message : J

/-- pydantic validation of a required `str` field. -/
def pyStrField : J → Except PyExc String
  | .str s => .ok s
  | _ => .error .validationError

/-- pydantic validation of an `Optional[int]` field (numeric strings are
coerced with `int(str)` semantics). -/
def pyOptIntField : J → Except PyExc (Option Int)
  | .null => .ok none
  | .num n => .ok (some n)
  | .str s =>
    match pyInt s with
    | some n => .ok (some n)
    | none => .error .validationError
  | _ => .error .validationError

/-- The per-message part of `parse_webhook_payload`: field subscripts, type
mapping, content extraction and `ParsedMessage` validation. -/
def parseMsg (msg : J) : Except PyExc ParsedMessage :=
  match msg with
  | .obj m => do
    let from_v ← pySubscript (.obj m) "from"
    let type_v ← pySubscript (.obj m) "type"
    let mt := mtypeOf type_v
    let content ← extract_message_content m mt
    let from_phone ← pyStrField from_v
    let message_id ← pyStrField (objGetD m "id" .null)
    let timestamp ← pyOptIntField (objGetD m "timestamp" .null)
    pure ⟨from_phone, message_id, mt, content, timestamp, .obj m⟩
  | _ => .error .typeError

/-- `payload.get("entry", [])[0].get("changes", [])[0].get("value", {})`. -/
def nav (payload : J) : Except PyExc J := do
  let entry0 ← pyIndex0 (← pyGet payload "entry" (.arr []))
  let changes0 ← pyIndex0 (← pyGet entry0 "changes" (.arr []))
  pyGet changes0 "value" (.obj [])

/-- Navigation up to `messages[0]`: `none` when `messages` is absent or falsy
(the status-event branch only logs). -/
def navMessages (payload : J) : Except PyExc (Option J) := do
  let value ← nav payload
  let messages ← pyGet value "messages" .null
  if jTruthy messages then do
    let msg ← pyIndex0 messages
    pure (some msg)
  else
    pure none

def parseCore (payload : J) : Except PyExc (Option ParsedMessage) :=
  navMessages payload >>= fun mm =>
    match mm with
    | none => pure none
    | some msg => parseMsg msg >>= fun pm => pure (some pm)

inductive PResult
  | parseError
  | pyError (e : PyExc)
  | skip
  | parsed (pm : ParsedMessage)

/-- `parse_webhook_payload(payload)`: the `try` body with
`except (KeyError, IndexError)` re-raised as `ParseError` (`skip` is the
`return None` path; other exception kinds propagate). -/
def parse_webhook_payload (payload : J) : PResult :=
  match parseCore payload with
  | .ok none => .skip
  | .ok (some pm) => .parsed pm
  | .error .keyError => .parseError
  | .error .indexError => .parseError
  | .error e => .pyError e

/-! ### Exception-kind classification for the parser -/

theorem ok_bind {α β : Type} (v : α) (f : α → Except PyExc β) :
    (Except.ok v : Except PyExc α) >>= f = f v := rfl

theorem error_bind {α β : Type} (e : PyExc) (f : α → Except PyExc β) :
    (Except.error e : Except PyExc α) >>= f = .error e := rfl

theorem except_bind_error {α β : Type} (a : Except PyExc α) (f : α → Except PyExc β)
    (e : PyExc) (h : a >>= f = .error e) :
    a = .error e ∨ ∃ v, a = .ok v ∧ f v = .error e := by
  cases a with
  | error x =>
    rw [error_bind] at h
    injection h with h
    subst h
    exact Or.inl rfl
  | ok v =>
    rw [ok_bind] at h
    exact Or.inr ⟨v, rfl, h⟩

theorem except_bind_ok {α β : Type} (a : Except PyExc α) (f : α → Except PyExc β)
    (b : β) (h : a >>= f = .ok b) : ∃ v, a = .ok v ∧ f v = .ok b := by
  cases a with
  | error x =>
    rw [error_bind] at h
    exact Except.noConfusion h
  | ok v =>
    rw [ok_bind] at h
    exact ⟨v, rfl, h⟩

theorem pyGet_error {v : J} {k : String} {d : J} {e : PyExc}
    (h : pyGet v k d = .error e) : e = .attributeError := by
  cases v <;> simp [pyGet] at h <;> exact h.symm

theorem pyStrField_error {v : J} {e : PyExc} (h : pyStrField v = .error e) :
    e = .validationError := by
  cases v <;> simp [pyStrField] at h <;> exact h.symm

theorem pyOptIntField_error {v : J} {e : PyExc} (h : pyOptIntField v = .error e) :
    e = .validationError := by
  cases v <;> simp only [pyOptIntField] at h <;>
    first
    | exact Except.noConfusion h
    | (injection h with h; exact h.symm)
    | (split at h
       · exact Except.noConfusion h
       · injection h with h; exact h.symm)

theorem extract_message_content_error (m : List (String × J)) (mt : MType) (e : PyExc)
    (h : extract_message_content m mt = .error e) : e = .attributeError := by
  cases mt with
  | text =>
    simp only [extract_message_content] at h
    rcases except_bind_error _ _ _ h with h | ⟨w1, hw1, h⟩
    · exact pyGet_error h
    · exact Except.noConfusion h
  | image =>
    simp only [extract_message_content] at h
    rcases except_bind_error _ _ _ h with h | ⟨w2, hw2, h⟩
    · exact pyGet_error h
    rcases except_bind_error _ _ _ h with h | ⟨w3, hw3, h⟩
    · exact pyGet_error h
    rcases except_bind_error _ _ _ h with h | ⟨w4, hw4, h⟩
    · exact pyGet_error h
    · exact Except.noConfusion h
  | video =>
    simp only [extract_message_content] at h
    rcases except_bind_error _ _ _ h with h | ⟨w5, hw5, h⟩
    · exact pyGet_error h
    rcases except_bind_error _ _ _ h with h | ⟨w6, hw6, h⟩
    · exact pyGet_error h
    rcases except_bind_error _ _ _ h with h | ⟨w7, hw7, h⟩
    · exact pyGet_error h
    · exact Except.noConfusion h
  | audio =>
    simp only [extract_message_content] at h
    rcases except_bind_error _ _ _ h with h | ⟨w8, hw8, h⟩
    · exact pyGet_error h
    rcases except_bind_error _ _ _ h with h | ⟨w9, hw9, h⟩
    · exact pyGet_error h
    · exact Except.noConfusion h
  | document =>
    simp only [extract_message_content] at h
    rcases except_bind_error _ _ _ h with h | ⟨w10, hw10, h⟩
    · exact pyGet_error h
    rcases except_bind_error _ _ _ h with h | ⟨w11, hw11, h⟩
    · exact pyGet_error h
    rcases except_bind_error _ _ _ h with h | ⟨w12, hw12, h⟩
    · exact pyGet_error h
    · exact Except.noConfusion h
  | interactive =>
    simp only [extract_message_content] at h
    rcases except_bind_error _ _ _ h with h | ⟨w13, hw13, h⟩
    · exact pyGet_error h
    split at h
    · rcases except_bind_error _ _ _ h with h | ⟨w14, hw14, h⟩
      · exact pyGet_error h
      rcases except_bind_error _ _ _ h with h | ⟨w15, hw15, h⟩
      · exact pyGet_error h
      rcases except_bind_error _ _ _ h with h | ⟨w16, hw16, h⟩
      · exact pyGet_error h
      · exact Except.noConfusion h
    split at h
    · rcases except_bind_error _ _ _ h with h | ⟨w17, hw17, h⟩
      · exact pyGet_error h
      rcases except_bind_error _ _ _ h with h | ⟨w18, hw18, h⟩
      · exact pyGet_error h
      rcases except_bind_error _ _ _ h with h | ⟨w19, hw19, h⟩
      · exact pyGet_error h
      · exact Except.noConfusion h
    · exact Except.noConfusion h
  | location =>
    simp only [extract_message_content] at h
    exact Except.noConfusion h
  | contacts =>
    simp only [extract_message_content] at h
    exact Except.noConfusion h
  | unknown =>
    simp only [extract_message_content] at h
    exact Except.noConfusion h

theorem pySubscript_obj_ok (m : List (String × J)) (k : String) (v : J) :
    pySubscript (.obj m) k = .ok v ↔ assocLookup m k = some v := by
  cases hl : assocLookup m k <;> simp [pySubscript, hl]

theorem pySubscript_obj_error (m : List (String × J)) (k : String) (e : PyExc) :
    pySubscript (.obj m) k = .error e ↔ (assocLookup m k = none ∧ e = .keyError) := by
  cases hl : assocLookup m k <;> simp [pySubscript, hl]
  exact eq_comm

theorem parseMsg_keyError_iff (msg : J) :
    parseMsg msg = .error .keyError ↔
      ∃ m : List (String × J), msg = .obj m ∧
        (assocLookup m "from" = none ∨ assocLookup m "type" = none) := by
  constructor
  · intro h
    cases msg with
    | obj m =>
      refine ⟨m, rfl, ?_⟩
      simp only [parseMsg] at h
      rcases except_bind_error _ _ _ h with h | ⟨fv, hfv, h⟩
      · exact Or.inl ((pySubscript_obj_error m "from" _).mp h).1
      rcases except_bind_error _ _ _ h with h | ⟨tv, htv, h⟩
      · exact Or.inr ((pySubscript_obj_error m "type" _).mp h).1
      exfalso
      rcases except_bind_error _ _ _ h with h | ⟨c, hc, h⟩
      · exact PyExc.noConfusion (extract_message_content_error _ _ _ h)
      rcases except_bind_error _ _ _ h with h | ⟨fp, hfp, h⟩
      · exact PyExc.noConfusion (pyStrField_error h)
      rcases except_bind_error _ _ _ h with h | ⟨mi, hmi, h⟩
      · exact PyExc.noConfusion (pyStrField_error h)
      rcases except_bind_error _ _ _ h with h | ⟨ts, hts, h⟩
      · exact PyExc.noConfusion (pyOptIntField_error h)
      · exact Except.noConfusion h
    | null => simp [parseMsg] at h
    | bool b => simp [parseMsg] at h
    | num n => simp [parseMsg] at h
    | str s => simp [parseMsg] at h
    | arr l => simp [parseMsg] at h
  · rintro ⟨m, rfl, hmiss⟩
    simp only [parseMsg]
    rcases hmiss with hmiss | hmiss
    · rw [show pySubscript (.obj m) "from" = .error .keyError from
        (pySubscript_obj_error m "from" _).mpr ⟨hmiss, rfl⟩, error_bind]
    · cases hf : assocLookup m "from" with
      | none =>
        rw [show pySubscript (.obj m) "from" = .error .keyError from
          (pySubscript_obj_error m "from" _).mpr ⟨hf, rfl⟩, error_bind]
      | some fv =>
        rw [show pySubscript (.obj m) "from" = .ok fv from
          (pySubscript_obj_ok m "from" fv).mpr hf, ok_bind]
        rw [show pySubscript (.obj m) "type" = .error .keyError from
          (pySubscript_obj_error m "type" _).mpr ⟨hmiss, rfl⟩, error_bind]

theorem parseMsg_ne_indexError (msg : J) : parseMsg msg ≠ .error .indexError := by
  intro h
  cases msg with
  | obj m =>
    simp only [parseMsg] at h
    rcases except_bind_error _ _ _ h with h | ⟨fv, hfv, h⟩
    · exact PyExc.noConfusion ((pySubscript_obj_error m "from" _).mp h).2
    rcases except_bind_error _ _ _ h with h | ⟨tv, htv, h⟩
    · exact PyExc.noConfusion ((pySubscript_obj_error m "type" _).mp h).2
    rcases except_bind_error _ _ _ h with h | ⟨c, hc, h⟩
    · exact PyExc.noConfusion (extract_message_content_error _ _ _ h)
    rcases except_bind_error _ _ _ h with h | ⟨fp, hfp, h⟩
    · exact PyExc.noConfusion (pyStrField_error h)
    rcases except_bind_error _ _ _ h with h | ⟨mi, hmi, h⟩
    · exact PyExc.noConfusion (pyStrField_error h)
    rcases except_bind_error _ _ _ h with h | ⟨ts, hts, h⟩
    · exact PyExc.noConfusion (pyOptIntField_error h)
    · exact Except.noConfusion h
  | null => simp [parseMsg] at h
  | bool b => simp [parseMsg] at h
  | num n => simp [parseMsg] at h
  | str s => simp [parseMsg] at h
  | arr l => simp [parseMsg] at h

theorem pyIndex0_error {v : J} {e : PyExc} (h : pyIndex0 v = .error e) :
    e = .indexError ∨ e = .keyError ∨ e = .typeError := by
  cases v with
  | arr l =>
    cases l with
    | nil => injection h with h; exact Or.inl h.symm
    | cons a tl => exact Except.noConfusion h
  | str s =>
    simp only [pyIndex0] at h
    cases hd : s.data with
    | nil => rw [hd] at h; injection h with h; exact Or.inl h.symm
    | cons c cs => rw [hd] at h; exact Except.noConfusion h
  | null => injection h with h; exact Or.inr (Or.inr h.symm)
  | bool b => injection h with h; exact Or.inr (Or.inr h.symm)
  | num n => injection h with h; exact Or.inr (Or.inr h.symm)
  | obj l => injection h with h; exact Or.inr (Or.inl h.symm)

theorem pyIndex0_obj_keyError (l : List (String × J)) :
    pyIndex0 (.obj l) = .error .keyError := rfl

theorem pyIndex0_truthy_ne_indexError {v : J} (ht : jTruthy v = true) :
    pyIndex0 v ≠ .error .indexError := by
  intro h
  cases v with
  | arr l =>
    cases l with
    | nil => simp [jTruthy] at ht
    | cons a tl => exact Except.noConfusion h
  | str s =>
    simp only [pyIndex0] at h
    simp only [jTruthy, Bool.not_eq_true'] at ht
    cases hd : s.data with
    | nil => rw [hd] at ht; simp at ht
    | cons c cs => rw [hd] at h; exact Except.noConfusion h
  | null => simp [jTruthy] at ht
  | bool b => injection h with h; exact PyExc.noConfusion h.symm
  | num n => injection h with h; exact PyExc.noConfusion h.symm
  | obj l => injection h with h; exact PyExc.noConfusion h.symm

theorem navMessages_indexError_iff (p : J) :
    navMessages p = .error .indexError ↔ nav p = .error .indexError := by
  constructor
  · intro h
    simp only [navMessages] at h
    rcases except_bind_error _ _ _ h with h | ⟨v, hv, h⟩
    · exact h
    rcases except_bind_error _ _ _ h with h | ⟨msgs, hmsgs, h⟩
    · exact absurd (pyGet_error h) (by intro hh; exact PyExc.noConfusion hh)
    split at h
    case isTrue htr =>
      rcases except_bind_error _ _ _ h with h | ⟨m0, hm0, h⟩
      · exact absurd h (pyIndex0_truthy_ne_indexError htr)
      · exact Except.noConfusion h
    case isFalse => exact Except.noConfusion h
  · intro h
    simp only [navMessages]
    rw [h, error_bind]

theorem parse_eq_parseError_iff (p : J) :
    parse_webhook_payload p = .parseError ↔
      (parseCore p = .error .keyError ∨ parseCore p = .error .indexError) := by
  cases hpc : parseCore p with
  | ok o => cases o <;> simp [parse_webhook_payload, hpc]
  | error e => cases e <;> simp [parse_webhook_payload, hpc]

theorem parse_eq_parsed_iff (p : J) (pm : ParsedMessage) :
    parse_webhook_payload p = .parsed pm ↔ parseCore p = .ok (some pm) := by
  cases hpc : parseCore p with
  | ok o =>
    cases o with
    | none => simp [parse_webhook_payload, hpc]
    | some pm2 =>
      simp only [parse_webhook_payload, hpc]
      constructor
      · intro h; injection h with h; rw [h]
      · intro h; injection h with h; injection h with h; rw [h]
  | error e => cases e <;> simp [parse_webhook_payload, hpc]

theorem parseMsg_ok_fields (m : List (String × J)) (pm : ParsedMessage)
    (h : parseMsg (.obj m) = .ok pm) :
    (∃ tv, assocLookup m "type" = some tv ∧ pm.message_type = mtypeOf tv) ∧
      pm.raw_message = .obj m := by
  simp only [parseMsg] at h
  rcases except_bind_ok _ _ _ h with ⟨fv, hfv, h⟩
  rcases except_bind_ok _ _ _ h with ⟨tv, htv, h⟩
  rcases except_bind_ok _ _ _ h with ⟨content, hc, h⟩
  rcases except_bind_ok _ _ _ h with ⟨fp, hfp, h⟩
  rcases except_bind_ok _ _ _ h with ⟨mi, hmi, h⟩
  rcases except_bind_ok _ _ _ h with ⟨ts, hts, h⟩
  injection h with h
  rw [← h]
  exact ⟨⟨tv, (pySubscript_obj_ok m "type" tv).mp htv, rfl⟩, rfl⟩

/-- A payload whose `entry` is a dict: `payload.get("entry", [])[0]` raises
`KeyError`, which the parser converts to a parse error. -/
def payloadObjEntry : J :=
  .obj [("entry", .obj [("x", .num 1)])]

/-- A payload with full entry/changes/value nesting whose `messages` is a
(truthy) dict: `messages[0]` raises `KeyError` (dict keys are strings),
converted to a parse error. -/
def payloadObjMessages : J :=
  .obj [("entry", .arr [.obj [("changes", .arr [.obj [("value",
    .obj [("messages", .obj [("a", .num 1)])])]])]])]

/-- C6 (corrected): a payload whose `value` carries no truthy `messages`
parses to the skip result; a parse error is raised exactly when navigating
`entry[0].changes[0].value.messages[0]` raises `IndexError` (an empty list or
string at a `[0]` subscript) or `KeyError` (a dict at a `[0]` subscript,
since decoded JSON dict keys are strings), or the first message object lacks
its required `from` or `type` key (`KeyError`); parsing depends only on
`messages[0]`; the declared type is mapped through the closed known-type set
with everything else becoming `unknown`; and concretely a dict-valued `entry`
or `messages` level yields a parse error. -/
theorem parse_webhook_payload_spec :
    (∀ (payload v msgs : J),
      nav payload = .ok v → pyGet v "messages" .null = .ok msgs →
      jTruthy msgs = false →
      parse_webhook_payload payload = .skip) ∧
    (∀ payload : J,
      parse_webhook_payload payload = .parseError ↔
        (navMessages payload = .error .indexError ∨
         navMessages payload = .error .keyError ∨
          ∃ m : List (String × J), navMessages payload = .ok (some (.obj m)) ∧
            (assocLookup m "from" = none ∨ assocLookup m "type" = none))) ∧
    parse_webhook_payload payloadObjEntry = .parseError ∧
    parse_webhook_payload payloadObjMessages = .parseError ∧
    (∀ (p1 p2 msg : J),
      navMessages p1 = .ok (some msg) → navMessages p2 = .ok (some msg) →
      parse_webhook_payload p1 = parse_webhook_payload p2) ∧
    (∀ (payload : J) (m : List (String × J)) (tv : J) (pm : ParsedMessage),
      navMessages payload = .ok (some (.obj m)) → assocLookup m "type" = some tv →
      parse_webhook_payload payload = .parsed pm →
      pm.message_type = mtypeOf tv ∧ pm.raw_message = .obj m) := by
  refine ⟨?_, ?_, rfl, rfl, ?_, ?_⟩
  · intro payload v msgs h1 h2 h3
    have hnm : navMessages payload = .ok none := by
      simp only [navMessages]
      rw [h1, ok_bind, h2, ok_bind, h3]
      rfl
    have hpc : parseCore payload = .ok none := by
      rw [parseCore, hnm, ok_bind]
      rfl
    simp [parse_webhook_payload, hpc]
  · intro payload
    constructor
    · intro h
      rcases (parse_eq_parseError_iff payload).mp h with hpc | hpc
      · rw [parseCore] at hpc
        rcases except_bind_error _ _ _ hpc with hk | ⟨mm, hmm, hf⟩
        · exact Or.inr (Or.inl hk)
        cases mm with
        | none => exact Except.noConfusion hf
        | some msg =>
          rcases except_bind_error _ _ _ hf with hk | ⟨pm, hpm, hp⟩
          · obtain ⟨m, rfl, hmiss⟩ := (parseMsg_keyError_iff msg).mp hk
            exact Or.inr (Or.inr ⟨m, hmm, hmiss⟩)
          · exact Except.noConfusion hp
      · rw [parseCore] at hpc
        rcases except_bind_error _ _ _ hpc with hk | ⟨mm, hmm, hf⟩
        · exact Or.inl hk
        cases mm with
        | none => exact Except.noConfusion hf
        | some msg =>
          rcases except_bind_error _ _ _ hf with hk | ⟨pm, hpm, hp⟩
          · exact absurd hk (parseMsg_ne_indexError msg)
          · exact Except.noConfusion hp
    · intro h
      rcases h with hnav | hnav | ⟨m, hmm, hmiss⟩
      · have h2 : parseCore payload = .error .indexError := by
          rw [parseCore, hnav, error_bind]
        exact (parse_eq_parseError_iff payload).mpr (Or.inr h2)
      · have h2 : parseCore payload = .error .keyError := by
          rw [parseCore, hnav, error_bind]
        exact (parse_eq_parseError_iff payload).mpr (Or.inl h2)
      · have h1 : parseMsg (.obj m) = .error .keyError :=
          (parseMsg_keyError_iff _).mpr ⟨m, rfl, hmiss⟩
        have h2 : parseCore payload = .error .keyError := by
          rw [parseCore, hmm, ok_bind]
          show parseMsg (.obj m) >>= _ = _
          rw [h1, error_bind]
        exact (parse_eq_parseError_iff payload).mpr (Or.inl h2)
  · intro p1 p2 msg h1 h2
    have hpc : parseCore p1 = parseCore p2 := by
      rw [parseCore, parseCore, h1, h2]
    rw [parse_webhook_payload, parse_webhook_payload, hpc]
  · intro payload m tv pm hmm hlook hp
    have hpc : parseCore payload = .ok (some pm) :=
      (parse_eq_parsed_iff payload pm).mp hp
    rw [parseCore, hmm, ok_bind] at hpc
    have hpc2 : parseMsg (.obj m) >>= (fun pm2 => pure (some pm2)) = .ok (some pm) := hpc
    rcases except_bind_ok _ _ _ hpc2 with ⟨pm2, hpm2, hpure⟩
    have hpmeq : pm2 = pm := by
      injection hpure with hpure
      injection hpure with hpure
    subst hpmeq
    obtain ⟨⟨tv2, hl2, hmt⟩, hraw⟩ := parseMsg_ok_fields m pm2 hpm2
    rw [hlook] at hl2
    injection hl2 with hl2
    subst hl2
    exact ⟨hmt, hraw⟩

/-- A payload with the full entry/changes/value nesting whose first message
lacks the required `from` key. -/
def payloadMissingFrom : J :=
  .obj [("entry", .arr [.obj [("changes", .arr [.obj [("value",
    .obj [("messages", .arr [.obj [("type", .str "text")]])])]])]])]

/-- C6 counterexample to the claim as stated: the entry/changes nesting is
fully present (navigation succeeds), yet the parser raises a parse error,
because the first message lacks its `from` key. -/
theorem parse_webhook_claim_counterexample :
    parse_webhook_payload payloadMissingFrom = .parseError ∧
    nav payloadMissingFrom =
      .ok (.obj [("messages", .arr [.obj [("type", .str "text")]])]) :=
  ⟨rfl, rfl⟩

/-- A delivery-status event: `value` has `statuses` but no `messages`. -/
def payloadStatusEvent : J :=
  .obj [("entry", .arr [.obj [("changes", .arr [.obj [("value",
    .obj [("statuses", .arr [.obj [("status", .str "delivered")]])])]])]])]

/-- Witness for `parse_webhook_payload_spec` at a delivery-status payload. -/
theorem parse_webhook_payload_spec_witness :
    parse_webhook_payload payloadStatusEvent = .skip :=
  parse_webhook_payload_spec.1 payloadStatusEvent
    (.obj [("statuses", .arr [.obj [("status", .str "delivered")]])]) .null
    rfl rfl rfl

/-! ## `app/api/routes/whatsapp.py` — the `GET /webhook` verification endpoint -/

inductive VerifyResult
  | ok (n : Int)
  | httpError (status : Nat)
  | internalError
deriving DecidableEq, Repr

/-- `not param` for an optional query parameter: absent or empty is falsy. -/
def pyFalsyOptStr : Option String → Bool
  | none => true
  | some s => s.data.isEmpty

/-- The `verify` route handler: 400 for missing/empty parameters, 400 for a
mode other than `subscribe`, 403 when the token fails validation, then the
challenge parsed with `int()` (`ValueError` → 400).  An exception escaping
the handler (the non-ASCII `compare_digest` `TypeError`) surfaces as an
internal server error. -/
def verify (hub_mode hub_challenge hub_verify_token : Option String)
    (configToken : String) : VerifyResult :=
  if pyFalsyOptStr hub_mode || pyFalsyOptStr hub_challenge ||
      pyFalsyOptStr hub_verify_token then
    .httpError 400
  else if hub_mode.getD "" ≠ "subscribe" then .httpError 400
  else
    match validate_verify_token (hub_verify_token.getD "") configToken with
    | .error _ => .internalError
    | .ok false => .httpError 403
    | .ok true =>
      match pyInt (hub_challenge.getD "") with
      | some n => .ok n
      | none => .httpError 400

theorem validate_ok_true_iff (received expected : String)
    (hra : received.data.all isAsciiChar = true)
    (hea : expected.data.all isAsciiChar = true) :
    validate_verify_token received expected = .ok true ↔
      (received.data ≠ [] ∧ expected.data ≠ [] ∧ received = expected) := by
  rw [validate_verify_token]
  by_cases h1 : received.data.isEmpty
  · rw [if_pos (by simp [h1])]
    constructor
    · intro h; injection h with h; exact Bool.noConfusion h
    · rintro ⟨hne, -, -⟩
      exact absurd (List.isEmpty_iff.mp h1) hne
  · by_cases h2 : expected.data.isEmpty
    · rw [if_pos (by simp [h2])]
      constructor
      · intro h; injection h with h; exact Bool.noConfusion h
      · rintro ⟨-, hne, -⟩
        exact absurd (List.isEmpty_iff.mp h2) hne
    · rw [if_neg (by simp [h1, h2])]
      rw [pyCompareDigest, if_pos (by simp [hra, hea])]
      constructor
      · intro h
        injection h with h
        refine ⟨by simpa [List.isEmpty_iff] using h1, by simpa [List.isEmpty_iff] using h2, ?_⟩
        cases received
        cases expected
        exact congrArg String.mk (eq_of_beq h)
      · rintro ⟨-, -, rfl⟩
        simp

theorem validate_mismatch_ok_false (received expected : String)
    (hra : received.data.all isAsciiChar = true)
    (hea : expected.data.all isAsciiChar = true)
    (hne : received.data ≠ []) (hneq : received ≠ expected) :
    validate_verify_token received expected = .ok false := by
  rw [validate_verify_token]
  by_cases h2 : expected.data.isEmpty
  · rw [if_pos (by simp [h2])]
  · rw [if_neg (by simp [List.isEmpty_iff, hne, h2])]
    rw [pyCompareDigest, if_pos (by simp [hra, hea])]
    have : (received.data == expected.data) = false := by
      rw [beq_eq_false_iff_ne]
      intro hd
      apply hneq
      cases received
      cases expected
      exact congrArg String.mk hd
    rw [this]

theorem validate_nonascii_error (received expected : String)
    (hne : received.data ≠ []) (hne2 : expected.data ≠ [])
    (hnascii : ¬(received.data.all isAsciiChar = true ∧
      expected.data.all isAsciiChar = true)) :
    ∃ e : PyExc, validate_verify_token received expected = .error e := by
  rw [validate_verify_token, if_neg (by simp [List.isEmpty_iff, hne, hne2])]
  rw [pyCompareDigest]
  rw [if_neg (by
    intro hcon
    simp only [Bool.and_eq_true] at hcon
    exact hnascii hcon)]
  exact ⟨.typeError, rfl⟩

/-- C7 (corrected): the verification endpoint returns the integer-parsed
challenge with HTTP 200 iff the mode is `subscribe`, the challenge is a
present nonempty string accepted by `int()`, and the present nonempty token
equals the configured token — provided both tokens and the challenge are
ASCII (on ASCII strings `pyInt` is exactly CPython `int()`; non-ASCII decimal
digits, which `int()` also accepts, are outside the model, and a non-ASCII
token raises inside the constant-time comparison).  A present mismatched
ASCII token gives 403; missing/empty parameters, a wrong mode, or an ASCII
challenge rejected by `int()` give 400; and a non-ASCII token comparison
raises inside `hmac.compare_digest`, surfacing as an internal server
error. -/
theorem webhook_verify_spec (hub_mode hub_challenge hub_verify_token : Option String)
    (configToken : String) :
    (∀ n : Int,
      (hub_verify_token.getD "").data.all isAsciiChar = true →
      configToken.data.all isAsciiChar = true →
      (hub_challenge.getD "").data.all isAsciiChar = true →
      (verify hub_mode hub_challenge hub_verify_token configToken = .ok n ↔
        (hub_mode = some "subscribe" ∧
         (∃ c : String, hub_challenge = some c ∧ c.data ≠ [] ∧ pyInt c = some n) ∧
         (∃ t : String, hub_verify_token = some t ∧ t.data ≠ [] ∧ t = configToken)))) ∧
    (∀ t : String,
      t.data.all isAsciiChar = true → configToken.data.all isAsciiChar = true →
      hub_mode = some "subscribe" → pyFalsyOptStr hub_challenge = false →
      hub_verify_token = some t → t.data ≠ [] → t ≠ configToken →
      verify hub_mode hub_challenge hub_verify_token configToken = .httpError 403) ∧
    ((pyFalsyOptStr hub_mode || pyFalsyOptStr hub_challenge ||
        pyFalsyOptStr hub_verify_token) = true →
      verify hub_mode hub_challenge hub_verify_token configToken = .httpError 400) ∧
    (∀ m : String, hub_mode = some m → m.data ≠ [] → m ≠ "subscribe" →
      verify hub_mode hub_challenge hub_verify_token configToken = .httpError 400) ∧
    (∀ (c : String),
      (hub_verify_token.getD "").data.all isAsciiChar = true →
      configToken.data.all isAsciiChar = true →
      c.data.all isAsciiChar = true →
      hub_mode = some "subscribe" → hub_challenge = some c → c.data ≠ [] →
      pyInt c = none → hub_verify_token = some configToken → configToken.data ≠ [] →
      verify hub_mode hub_challenge hub_verify_token configToken = .httpError 400) ∧
    (∀ t : String,
      hub_mode = some "subscribe" → pyFalsyOptStr hub_challenge = false →
      hub_verify_token = some t → t.data ≠ [] → configToken.data ≠ [] →
      ¬(t.data.all isAsciiChar = true ∧ configToken.data.all isAsciiChar = true) →
      verify hub_mode hub_challenge hub_verify_token configToken = .internalError) := by
  refine ⟨?_, ?_, ?_, ?_, ?_, ?_⟩
  · intro n hta hca hchal
    constructor
    · intro h
      rw [verify] at h
      by_cases hfal : (pyFalsyOptStr hub_mode || pyFalsyOptStr hub_challenge ||
          pyFalsyOptStr hub_verify_token) = true
      · rw [if_pos hfal] at h
        exact VerifyResult.noConfusion h
      rw [if_neg hfal] at h
      simp only [Bool.or_eq_true, not_or] at hfal
      obtain ⟨⟨hm, hc⟩, ht⟩ := hfal
      cases hmode : hub_mode with
      | none => rw [hmode] at hm; simp [pyFalsyOptStr] at hm
      | some m =>
      cases hch : hub_challenge with
      | none => rw [hch] at hc; simp [pyFalsyOptStr] at hc
      | some c =>
      cases htk : hub_verify_token with
      | none => rw [htk] at ht; simp [pyFalsyOptStr] at ht
      | some t =>
      rw [hmode, hch, htk] at h
      simp only [Option.getD_some] at h
      rw [hmode] at hm
      rw [hch] at hc
      rw [htk] at ht
      simp only [pyFalsyOptStr, List.isEmpty_iff] at hm hc ht
      by_cases hsub : m = "subscribe"
      · subst hsub
        rw [if_neg (by simp)] at h
        rw [htk] at hta
        cases hval : validate_verify_token t configToken with
        | error e => rw [hval] at h; exact VerifyResult.noConfusion h
        | ok b =>
          cases b with
          | false => rw [hval] at h; exact VerifyResult.noConfusion h
          | true =>
            rw [hval] at h
            obtain ⟨-, -, hteq⟩ :=
              (validate_ok_true_iff t configToken (by simpa using hta) hca).mp hval
            cases hint : pyInt c with
            | none => rw [hint] at h; exact VerifyResult.noConfusion h
            | some n0 =>
              rw [hint] at h
              injection h with h
              subst h
              exact ⟨rfl, ⟨c, rfl, hc, hint⟩, ⟨t, rfl, ht, hteq⟩⟩
      · rw [if_pos (by simpa using hsub)] at h
        exact VerifyResult.noConfusion h
    · rintro ⟨hmode, ⟨c, hch, hcne, hint⟩, ⟨t, htk, htne, hteq⟩⟩
      rw [verify, hmode, hch, htk]
      simp only [Option.getD_some]
      rw [if_neg (by simp [pyFalsyOptStr, List.isEmpty_iff, hcne, htne])]
      rw [if_neg (by simp)]
      rw [htk] at hta
      rw [show validate_verify_token t configToken = .ok true from
        (validate_ok_true_iff t configToken (by simpa using hta) hca).mpr
          ⟨htne, by rw [← hteq]; exact htne, hteq⟩]
      show (match pyInt c with | some n0 => VerifyResult.ok n0 | none => _) = _
      rw [hint]
  · intro t hta hca hmode hch htk htne hneq
    rw [verify, hmode, htk]
    cases hchv : hub_challenge with
    | none => rw [hchv] at hch; simp [pyFalsyOptStr] at hch
    | some c =>
      rw [hchv] at hch
      simp only [Option.getD_some]
      rw [if_neg (by simp [pyFalsyOptStr, List.isEmpty_iff, htne]; simpa [pyFalsyOptStr] using hch)]
      rw [if_neg (by simp)]
      rw [validate_mismatch_ok_false t configToken hta hca htne hneq]
  · intro hfal
    rw [verify, if_pos hfal]
  · intro m hmode hmne hmneq
    rw [verify, hmode]
    by_cases hfal : (pyFalsyOptStr (some m) || pyFalsyOptStr hub_challenge ||
        pyFalsyOptStr hub_verify_token) = true
    · rw [if_pos hfal]
    · rw [if_neg hfal]
      rw [if_pos (by simpa using hmneq)]
  · intro c hta hca hchal hmode hch hcne hint htk hcfne
    rw [verify, hmode, hch, htk]
    simp only [Option.getD_some]
    rw [if_neg (by simp [pyFalsyOptStr, List.isEmpty_iff, hcne, hcfne])]
    rw [if_neg (by simp)]
    rw [htk] at hta
    rw [show validate_verify_token configToken configToken = .ok true from
      (validate_ok_true_iff configToken configToken (by simpa using hta) hca).mpr
        ⟨hcfne, hcfne, rfl⟩]
    show (match pyInt c with | some n0 => VerifyResult.ok n0 | none => _) = _
    rw [hint]
  · intro t hmode hch htk htne hcfne hnascii
    rw [verify, hmode, htk]
    cases hchv : hub_challenge with
    | none => rw [hchv] at hch; simp [pyFalsyOptStr] at hch
    | some c =>
      rw [hchv] at hch
      simp only [Option.getD_some]
      rw [if_neg (by simp [pyFalsyOptStr, List.isEmpty_iff, htne]; simpa [pyFalsyOptStr] using hch)]
      rw [if_neg (by simp)]
      obtain ⟨e, he⟩ := validate_nonascii_error t configToken htne hcfne hnascii
      rw [he]

/-- C7 counterexample to the claim as stated: with mode `subscribe`,
challenge `12345` and a matching (but non-ASCII) token, the endpoint neither
returns 200 nor 403 — the constant-time comparison raises `TypeError` and the
request fails with an internal server error; the same happens for a
mismatched non-ASCII token the claim says should yield 403. -/
theorem webhook_verify_claim_counterexample :
    verify (some "subscribe") (some "12345") (some "café") "café" = .internalError ∧
    verify (some "subscribe") (some "12345") (some "café") "secret_token" =
      .internalError :=
  ⟨rfl, rfl⟩

/-- Witness for `webhook_verify_spec`: the successful handshake echo. -/
theorem webhook_verify_spec_witness :
    verify (some "subscribe") (some "12345") (some "tok") "tok" = .ok 12345 :=
  ((webhook_verify_spec (some "subscribe") (some "12345") (some "tok") "tok").1 12345
    (by decide) (by decide) (by decide)).mpr
    ⟨rfl, ⟨"12345", rfl, by decide, by decide⟩, ⟨"tok", rfl, by decide, rfl⟩⟩

/-! Embedding of app/services/whatsapp_service.py — handle_incoming_webhook.

The wired orchestration pipeline (imported by both the webhook route and the
background task).  External calls are oracles; every call made is recorded as
an `Effect` so that the absence of any queue-manager interaction is provable.
Database session operations are modelled as always-succeeding effects; all
fallible boundaries (media fetch/download, reply generation, upload) can
raise, and the broad `except Exception` takes the error path. -/

inductive Effect
  | getMediaUrl (mediaId : J)
  | downloadMedia (url : String)
  | getOrCreateUser (phone : J)
  | getConversation
  | getHistory
  | dbAddMessage (sender : String) (mtype : J) (content : J)
  | dbCommit
  | generateReply (text : J)
  | uploadMedia (path : String)
  | sessionClose
  | sendText (toPhone : J) (message : String)
  | sendImageById (toPhone : J) (mediaId : String) (caption : Option String)
  | sendImageByUrl (toPhone : J) (url : String) (caption : Option String)
  | releaseUserProcessing (phone : J)
  | getAndClearQueuedMessages (phone : J)
  | enqueueJob (payload : J)

/-- The queue-manager and job-queue interactions the claim is about. -/
def isQueueOp : Effect → Bool
  | .releaseUserProcessing _ => true
  | .getAndClearQueuedMessages _ => true
  | .enqueueJob _ => true
  | _ => false

structure Oracles where
  getMediaUrl : J → Except PyExc String
  downloadMedia : String → Except PyExc (List Nat)
  canSend : Bool
  userId : Int
  generateReply : J → Except PyExc String
  uploadMedia : String → Except PyExc String

structure WebhookResponse where
  status : String
  message : String
  data : J

inductive WPayload
  | text (message : String)
  | imageById (mediaId : String) (caption : Option String)
  | imageByUrl (url : String) (caption : Option String)

def pyExcName : PyExc → String
  | .keyError => "KeyError"
  | .indexError => "IndexError"
  | .typeError => "TypeError"
  | .attributeError => "AttributeError"
  | .validationError => "ValidationError"

def errorResponse (e : PyExc) : WebhookResponse :=
  ⟨"error", pyExcName e, .obj []⟩

/-- Python `text += suffix` on a value of unknown type. -/
def pyAddStr (a : J) (b : String) : Except PyExc J :=
  match a with
  | .str s => .ok (.str (s ++ b))
  | _ => .error .typeError

/-- The per-type content extraction (lines 57–96): produces the text and any
downloaded image bytes, recording media calls. -/
def extractContent (o : Oracles) (msg : J) (msg_type : J) :
    List Effect × Except PyExc (J × Option (List Nat)) :=
  if jEqStr msg_type "text" then
    match pySubscript msg "text" with
    | .error e => ([], .error e)
    | .ok tfield =>
      match pySubscript tfield "body" with
      | .error e => ([], .error e)
      | .ok body => ([], .ok (body, none))
  else if jEqStr msg_type "image" then
    match pySubscript msg "image" with
    | .error e => ([], .error e)
    | .ok ifield =>
      match pySubscript ifield "id" with
      | .error e => ([], .error e)
      | .ok image_id =>
        match pyGet ifield "caption" (.str "") with
        | .error e => ([], .error e)
        | .ok caption =>
          let text := if jTruthy caption then caption else .str "[User sent an image]"
          match o.getMediaUrl image_id with
          | .error _ =>
            match pyAddStr text " (Failed to download image)" with
            | .error e2 => ([.getMediaUrl image_id], .error e2)
            | .ok text2 => ([.getMediaUrl image_id], .ok (text2, none))
          | .ok url =>
            match o.downloadMedia url with
            | .error _ =>
              match pyAddStr text " (Failed to download image)" with
              | .error e2 => ([.getMediaUrl image_id, .downloadMedia url], .error e2)
              | .ok text2 => ([.getMediaUrl image_id, .downloadMedia url], .ok (text2, none))
            | .ok bytes =>
              ([.getMediaUrl image_id, .downloadMedia url], .ok (text, some bytes))
  else if jEqStr msg_type "video" then
    match pySubscript msg "video" with
    | .error e => ([], .error e)
    | .ok vfield =>
      match pySubscript vfield "id" with
      | .error e => ([], .error e)
      | .ok video_id =>
        match pyGet vfield "caption" (.str "") with
        | .error e => ([], .error e)
        | .ok caption =>
          let text := if jTruthy caption then caption else .str "[User sent a video]"
          match o.getMediaUrl video_id with
          | .error _ =>
            match pyAddStr text " (Failed to download video)" with
            | .error e2 => ([.getMediaUrl video_id], .error e2)
            | .ok text2 => ([.getMediaUrl video_id], .ok (text2, none))
          | .ok _ => ([.getMediaUrl video_id], .ok (text, none))
  else if jEqStr msg_type "audio" || jEqStr msg_type "document" ||
      jEqStr msg_type "voice" then
    match pyGet msg (pyStr msg_type) (.obj []) with
    | .error e => ([], .error e)
    | .ok media_field =>
      match pyGet media_field "id" (.str "") with
      | .error e => ([], .error e)
      | .ok _ => ([], .ok (.str ("[User sent " ++ pyStr msg_type ++ "]"), none))
  else
    ([], .ok (.str ("[" ++ pyStr msg_type ++ " message not yet supported]"), none))

/-- The database/AI section (lines 98–205), including the `finally:
session.close()`. -/
def processMessage (o : Oracles) (from_phone msg_type text : J) :
    List Effect × Except PyExc (WebhookResponse × Option WPayload) :=
  let effsU := [Effect.getOrCreateUser from_phone]
  if !o.canSend then
    (effsU ++ [Effect.sessionClose],
     .ok (⟨"limited", "User reached daily limit",
           .obj [("phone", from_phone), ("user_id", .num o.userId)]⟩,
          some (.text "You\x27ve reached your daily limit. Please upgrade your subscription.")))
  else
    let effs1 := effsU ++
      [Effect.getConversation, Effect.dbAddMessage "user" msg_type text,
       Effect.dbCommit, Effect.getHistory, Effect.generateReply text]
    match o.generateReply text with
    | .error e => (effs1 ++ [Effect.sessionClose], .error e)
    | .ok reply_text =>
      if containsSub markerChars reply_text.data then
        let caption_text := String.mk (pyStrip ((pySplit markerChars reply_text.data).getD 0 []))
        match pyWords (pyStrip ((pySplit markerChars reply_text.data).getD 1 [])) with
        | [] => (effs1 ++ [Effect.sessionClose], .error .indexError)
        | w :: _ =>
          let gen_image_path := String.mk w
          let captionOpt := if caption_text = "" then none else some caption_text
          if !("http".data.isPrefixOf gen_image_path.data) then
            match o.uploadMedia gen_image_path with
            | .error e =>
              (effs1 ++ [Effect.uploadMedia gen_image_path,
                Effect.dbAddMessage "bot" (.str "image")
                  (.str ("Generated image: " ++ gen_image_path)),
                Effect.dbCommit, Effect.sessionClose],
               .ok (⟨"error", "Failed to send generated image",
                     .obj [("error", .str (pyExcName e))]⟩,
                    some (.text "[Error sending generated image]")))
            | .ok media_id =>
              (effs1 ++ [Effect.uploadMedia gen_image_path,
                Effect.dbAddMessage "bot" (.str "image")
                  (.str ("Generated image: " ++ gen_image_path)),
                Effect.dbCommit, Effect.sessionClose],
               .ok (⟨"success", "Webhook processed",
                     .obj [("reply_type", .str "image"), ("media_id", .str media_id),
                           ("caption", .str caption_text)]⟩,
                    some (.imageById media_id captionOpt)))
          else
            (effs1 ++
              [Effect.dbAddMessage "bot" (.str "image")
                (.str ("Generated image: " ++ gen_image_path)),
               Effect.dbCommit, Effect.sessionClose],
             .ok (⟨"success", "Webhook processed",
                   .obj [("reply_type", .str "image"), ("image_url", .str gen_image_path),
                         ("caption", .str caption_text)]⟩,
                  some (.imageByUrl gen_image_path captionOpt)))
      else
        (effs1 ++
          [Effect.dbAddMessage "bot" (.str "text") (.str reply_text),
           Effect.dbCommit, Effect.sessionClose],
         .ok (⟨"success", "Webhook processed",
               .obj [("reply_type", .str "text"), ("content", .str reply_text)]⟩,
              some (.text reply_text)))

/-- The single send at the end (lines 217–219): fires only when a payload was
built and `to_phone` is truthy. -/
def finishSend (to_phone : J) (resp : WebhookResponse) (wp : Option WPayload)
    (effs : List Effect) : WebhookResponse × List Effect :=
  match wp with
  | none => (resp, effs)
  | some p =>
    if jTruthy to_phone then
      match p with
      | .text m => (resp, effs ++ [.sendText to_phone m])
      | .imageById mid cap => (resp, effs ++ [.sendImageById to_phone mid cap])
      | .imageByUrl url cap => (resp, effs ++ [.sendImageByUrl to_phone url cap])
    else (resp, effs)

def errText : WPayload := .text "Sorry, I encountered an error processing your message."

/-- `handle_incoming_webhook(payload)`. -/
def handle_incoming_webhook (o : Oracles) (payload : J) :
    WebhookResponse × List Effect :=
  match nav payload >>= fun value => pyGet value "messages" .null with
  | .error e => (errorResponse e, [])
  | .ok messages =>
    if !jTruthy messages then
      (⟨"skipped", "No messages in payload", .obj []⟩, [])
    else
      match pyIndex0 messages with
      | .error e => (errorResponse e, [])
      | .ok msg =>
        match pySubscript msg "from" with
        | .error e => (errorResponse e, [])
        | .ok from_phone =>
          match pySubscript msg "type" with
          | .error e => finishSend from_phone (errorResponse e) (some errText) []
          | .ok msg_type =>
            let ec := extractContent o msg msg_type
            match ec.2 with
            | .error e => finishSend from_phone (errorResponse e) (some errText) ec.1
            | .ok (text, _image_data) =>
              let pr := processMessage o from_phone msg_type text
              match pr.2 with
              | .error e =>
                finishSend from_phone (errorResponse e) (some errText) (ec.1 ++ pr.1)
              | .ok (resp, wp) => finishSend from_phone resp wp (ec.1 ++ pr.1)

/-- Concrete oracles for a fully successful run. -/
def oDefault : Oracles :=
  ⟨fun _ => .ok "https://media.example/url", fun _ => .ok [1, 2, 3], true, 1,
   fun _ => .ok "Hello!", fun _ => .ok "MEDIA123"⟩

/-- A minimal one-text-message webhook payload. -/
def bugPayload : J :=
  .obj [("entry", .arr [.obj [("changes", .arr [.obj [("value",
    .obj [("messages", .arr [.obj [("from", .str "15551234567"),
      ("type", .str "text"),
      ("text", .obj [("body", .str "hi")])]])])]])]])]

theorem extractContent_no_queue (o : Oracles) (msg msg_type : J) :
    (extractContent o msg msg_type).1.all (fun e => !isQueueOp e) = true := by
  simp only [extractContent]
  repeat' split <;> try rfl

theorem processMessage_no_queue (o : Oracles) (from_phone msg_type text : J) :
    (processMessage o from_phone msg_type text).1.all (fun e => !isQueueOp e) = true := by
  simp only [processMessage]
  repeat' split <;> try rfl

theorem finishSend_no_queue (to_phone : J) (resp : WebhookResponse)
    (wp : Option WPayload) (effs : List Effect)
    (h : effs.all (fun e => !isQueueOp e) = true) :
    (finishSend to_phone resp wp effs).2.all (fun e => !isQueueOp e) = true := by
  cases wp with
  | none => simpa [finishSend] using h
  | some p =>
    by_cases ht : jTruthy to_phone = true
    · cases p <;> simp only [finishSend, ht, List.all_append, h, if_true] <;> rfl
    · simp [finishSend, ht, h]

/-- C1: contrary to spec sections 4.7 and 4.22 (step 13), the wired webhook
pipeline never interacts with the per-user queue.  For every oracle behaviour
and every payload, the effect trace of handle_incoming_webhook contains no
release_user_processing, no get_and_clear_queued_messages, and no job
resubmission; in particular the concrete successful run on a minimal text
message emits exactly db/AI/send effects and nothing touching the queue. -/
theorem handle_incoming_webhook_never_drains_queue :
    (∀ (o : Oracles) (payload : J),
      (handle_incoming_webhook o payload).2.all (fun e => !isQueueOp e) = true) ∧
    handle_incoming_webhook oDefault bugPayload =
      (⟨"success", "Webhook processed",
        .obj [("reply_type", .str "text"), ("content", .str "Hello!")]⟩,
       [.getOrCreateUser (.str "15551234567"), .getConversation,
        .dbAddMessage "user" (.str "text") (.str "hi"), .dbCommit, .getHistory,
        .generateReply (.str "hi"), .dbAddMessage "bot" (.str "text") (.str "Hello!"),
        .dbCommit, .sessionClose, .sendText (.str "15551234567") "Hello!"]) := by
  refine ⟨fun o payload => ?_, rfl⟩
  simp only [handle_incoming_webhook]
  repeat' split
  all_goals
    first
      | rfl
      | (apply finishSend_no_queue; simp [List.all_append,
          extractContent_no_queue, processMessage_no_queue])

end WABot
